import Mathlib

/-! # DebugOS front end (`src/frontend/app.js`): a shallow embedding

The page is a single event-driven controller.  The embedding keeps the parts of the
browser state that the controller reads and writes (the code text area, the status
box, the result panes, the analyze button, the `Settings` record, the `theme` and
`codeDebugHistory` keys of local storage) as one record `AppState`, and every
handler as a function on that record.

Conventions
* A JavaScript string is its sequence of UTF-16 code units (`JsString = List Nat`);
  `length`, `substring` and the regular expressions of the source all work on units.
* `undefined` is `Option.none`; JSON primitives are `JsVal`.
* A run of `analyzeCode` suspends at `await fetch(...)`.  `analyzeStart` is the run up
  to there, `analyzeResume` its continuation, which takes the `FetchOutcome` and runs
  on the state the page is in at that moment: other handlers, a second run among
  them, may have run in between.  `analyzeCode` is the run in which none did.
* What the runtime supplies (`Date.now()`, `toLocaleString()`, the global `hljs`, the
  text of engine-raised errors) is the `Env` argument.
-/

namespace DebugOS

/-! ## Strings -/

/-- A JavaScript string: its UTF-16 code units. -/
abbrev JsString := List Nat

/-- UTF-16 code units of one Unicode scalar value. -/
def utf16 (c : Nat) : List Nat :=
  if c < 0x10000 then [c]
  else [0xD800 + (c - 0x10000) / 0x400, 0xDC00 + (c - 0x10000) % 0x400]

/-- The JavaScript string denoted by a string literal of the source. -/
def js (s : String) : JsString :=
  s.toList.flatMap (fun c => utf16 c.toNat)

/-- ECMAScript `WhiteSpace` or `LineTerminator`: the units removed by
`String.prototype.trim` and matched by `\s`. -/
def isWhiteSpace (c : Nat) : Bool :=
  c == 0x09 || c == 0x0A || c == 0x0B || c == 0x0C || c == 0x0D || c == 0x20 ||
  c == 0xA0 || c == 0x1680 || (0x2000 ≤ c && c ≤ 0x200A) || c == 0x2028 ||
  c == 0x2029 || c == 0x202F || c == 0x205F || c == 0x3000 || c == 0xFEFF

/-- The regular-expression class `\d`. -/
def isDigit (c : Nat) : Bool :=
  0x30 ≤ c && c ≤ 0x39

/-- The regular-expression class `\w` (no `u` flag): `[A-Za-z0-9_]`. -/
def isWordChar (c : Nat) : Bool :=
  (0x41 ≤ c && c ≤ 0x5A) || (0x61 ≤ c && c ≤ 0x7A) || isDigit c || c == 0x5F

/-- `String.prototype.trim`. -/
def trim (s : JsString) : JsString :=
  ((s.dropWhile isWhiteSpace).reverse.dropWhile isWhiteSpace).reverse

/-- Decimal rendering of an HTTP status (`String(n)` for an integer below 1000). -/
def decimal (n : Nat) : JsString :=
  (Nat.toDigits 10 n).map Char.toNat

/-! ## JSON values and the response of `POST /api/debug` -/

/-- A JSON primitive as produced by `JSON.parse`.  The page converts a number to
text and tests it for truth, and does nothing else with it: a number is kept as its
text `String(n)` and whether it differs from zero. -/
inductive JsVal where
  | null
  | bool (b : Bool)
  | num (text : JsString) (nonZero : Bool)
  | str (s : JsString)
  deriving DecidableEq, Repr

/-- ECMAScript `ToBoolean`; `undefined` is `none`. -/
def truthy : Option JsVal → Bool
  | none => false
  | some .null => false
  | some (.bool b) => b
  | some (.num _ nonZero) => nonZero
  | some (.str s) => !s.isEmpty

/-- ECMAScript `ToString` on a primitive. -/
def JsVal.toText : JsVal → JsString
  | .null => js "null"
  | .bool true => js "true"
  | .bool false => js "false"
  | .num text _ => text
  | .str s => s

/-- `ToString` on a possibly `undefined` value (string concatenation). -/
def optText : Option JsVal → JsString
  | none => js "undefined"
  | some v => v.toText

/-- `a || b` where `b` is a string literal, converted to text. -/
def orText (a : Option JsVal) (b : JsString) : JsString :=
  match a with
  | some v => if truthy (some v) then v.toText else b
  | none => b

/-- One element of `bugs`: `{line?, type, message}`. -/
structure Bug where
  line : Option JsVal := none
  type : Option JsVal := none
  message : Option JsVal := none
  deriving DecidableEq, Repr

/-- The `complexity` object: `{time, space}`. -/
structure Complexity where
  time : Option JsVal := none
  space : Option JsVal := none
  deriving DecidableEq, Repr

/-- One element of `tests`: `{description, input, expected_output}`. -/
structure TestCase where
  description : Option JsVal := none
  input : Option JsVal := none
  expected_output : Option JsVal := none
  deriving DecidableEq, Repr

/-- A response object.  Every field may be absent (`none`); a scalar field holds any
JSON primitive, and the containers `bugs`, `complexity` and `tests` have the shape the
page expects when present.  A container that is `null` behaves as an absent one at
each of its uses (`?.`, `&&`, `if`), so `none` stands for both. -/
structure Response where
  message : Option JsVal := none
  bugs : Option (List Bug) := none
  explanation : Option JsVal := none
  fixed_code : Option JsVal := none
  optimized_code : Option JsVal := none
  complexity : Option Complexity := none
  tests : Option (List TestCase) := none
  deriving DecidableEq, Repr

/-- The value `res.json()` resolves to: a primitive or a response object. -/
inductive Body where
  | prim (v : JsVal)
  | obj (r : Response)
  deriving DecidableEq, Repr

/-- `!data` is false. -/
def Body.truthy : Body → Bool
  | .prim v => DebugOS.truthy (some v)
  | .obj _ => true

/-- Property reads on `data`: a primitive has none of the fields. -/
def Body.fields : Body → Response
  | .prim _ => {}
  | .obj r => r

/-! ## Errors and the runtime -/

/-- A thrown value, with the `message` that the `catch` block reads. -/
inductive JsError where
  | error (message : JsString)
  | typeError (message : JsString)
  | referenceError (message : JsString)
  | syntaxError (message : JsString)
  deriving DecidableEq, Repr

/-- The property `error.message`. -/
def JsError.message : JsError → JsString
  | .error m => m
  | .typeError m => m
  | .referenceError m => m
  | .syntaxError m => m

/-- What the runtime supplies. -/
structure Env where
  /-- Value of `Date.now()`. -/
  now : Int
  /-- Value of `new Date().toLocaleString()`. -/
  nowText : JsString
  /-- The global `hljs`: `none` when the identifier is not declared, otherwise its
  truthiness. -/
  hljs : Option Bool
  /-- Message of the `TypeError` raised by reading a property of `undefined`
  or `null`, or by calling a non-function. -/
  typeErrorMessage : JsString
  /-- Message of the `ReferenceError` raised by an undeclared identifier. -/
  referenceErrorMessage : JsString
  deriving DecidableEq, Repr

/-- How the awaited request ends. -/
inductive FetchOutcome where
  /-- The promise of `fetch` rejects. -/
  | rejected (e : JsError)
  /-- A response arrives with this status; `body` is what `res.json()` settles to. -/
  | response (status : Nat) (body : Except JsError Body)

/-- The property `res.ok`: the status is in 200..299. -/
def statusOk (status : Nat) : Bool :=
  200 ≤ status && status ≤ 299

/-! ## Page state -/

/-- The element `#status`. -/
structure StatusBox where
  textContent : JsString
  classList : List JsString
  deriving DecidableEq, Repr

/-- What a table cell holds. -/
inductive CellBody where
  | text (t : JsString)
  | button (className : JsString) (textContent : JsString)
  deriving DecidableEq, Repr

/-- A `td` element: content, `colSpan`, and the two style properties of the line
cell.  Colours and text alignment are not tracked. -/
structure Cell where
  body : CellBody
  colSpan : Nat := 1
  fontWeight : JsString := []
  opacity : JsString := []
  deriving DecidableEq, Repr

/-- A `tr` element. -/
abbrev Row := List Cell

/-- One element of the stored history. -/
structure HistoryEntry where
  id : Int
  timestamp : JsString
  language : JsString
  code : JsString
  fullCode : JsString
  bugCount : Nat
  deriving DecidableEq, Repr

/-- The keys of `localStorage` that the modelled handlers use.  The value under
`codeDebugHistory` is kept parsed: it is a list that this page wrote, on which
`JSON.stringify` followed by `JSON.parse` is the identity.  Writes succeed (no quota
error). -/
structure Storage where
  theme : Option JsString
  history : Option (List HistoryEntry)
  deriving DecidableEq, Repr

/-- The fields of the global `Settings` that the modelled handlers read. -/
structure Settings where
  theme : JsString
  autoAnalyze : Bool
  deriving DecidableEq, Repr

/-- The body of the request sent to `/api/debug`. -/
structure Request where
  url : JsString
  language : JsString
  code : JsString
  deriving DecidableEq, Repr

/-- The browser state. -/
structure AppState where
  /-- Value of `codeInput`. -/
  codeInput : JsString
  /-- Value of `languageSelect`. -/
  languageSelect : JsString
  /-- Flag `analyzeBtn.disabled`. -/
  analyzeBtnDisabled : Bool
  statusBox : StatusBox
  /-- Children of `bugsTableBody`. -/
  bugsTableBody : List Row
  explanationBox : JsString
  fixedCodeBox : JsString
  optimizedCodeBox : JsString
  timeComplexity : JsString
  spaceComplexity : JsString
  /-- Text of the `li` children of `testsList`. -/
  testsList : List JsString
  settings : Settings
  localStorage : Storage
  /-- Attribute `data-theme` of the document element. -/
  dataTheme : JsString
  /-- Text of `themeToggle`. -/
  themeToggleText : JsString
  /-- Entries shown in `#history-list` (none shown: the "No history yet" text). -/
  historyList : List HistoryEntry
  /-- Requests issued so far, oldest first. -/
  requests : List Request
  deriving DecidableEq, Repr

def API_BASE_URL : JsString := js "http://127.0.0.1:8000"

/-! ## Theme management -/

/-- Initial value of `Settings.theme`: `localStorage.getItem('theme') || 'dark'`. -/
def initialTheme (stored : Option JsString) : JsString :=
  match stored with
  | some t => if t.isEmpty then js "dark" else t
  | none => js "dark"

/-- The function `applyTheme(theme)`. -/
def applyTheme (theme : JsString) (s : AppState) : AppState :=
  { s with
    dataTheme := theme
    settings := { s.settings with theme := theme }
    localStorage := { s.localStorage with theme := some theme }
    themeToggleText :=
      if theme = js "dark" then [0x2600, 0xFE0F] else [0xD83C, 0xDF19] }

/-- The click listener of `themeToggle`. -/
def themeToggleClick (s : AppState) : AppState :=
  let newTheme := if s.settings.theme = js "dark" then js "light" else js "dark"
  applyTheme newTheme s

/-! ## History management -/

/-- The expression `JSON.parse(localStorage.getItem(STORAGE_KEYS.history) || '[]')`. -/
def storedHistory (s : AppState) : List HistoryEntry :=
  s.localStorage.history.getD []

/-- The function `updateHistoryUI()`. -/
def updateHistoryUI (s : AppState) : AppState :=
  let history := storedHistory s
  { s with historyList := history }

/-- The expression `result.bugs?.length || 0`. -/
def bugCount (result : Body) : Nat :=
  match result.fields.bugs with
  | some bugs => bugs.length
  | none => 0

/-- The object literal `entry` of `saveToHistory`. -/
def newEntry (env : Env) (language code : JsString) (result : Body) : HistoryEntry :=
  { id := env.now
    timestamp := env.nowText
    language := language
    code := code.take 100 ++ (if code.length > 100 then js "..." else [])
    fullCode := code
    bugCount := bugCount result }

/-- The function `saveToHistory(language, code, result)`. -/
def saveToHistory (env : Env) (language code : JsString) (result : Body)
    (s : AppState) : AppState :=
  let history := storedHistory s
  let entry := newEntry env language code result
  let history := entry :: history
  let history := history.take 20
  updateHistoryUI { s with localStorage := { s.localStorage with history := some history } }

/-! ## Status messages and result panes -/

/-- The function `setStatus(message, type)`.  Every call site passes a single class
name as `type`. -/
def setStatus (message type : JsString) (s : AppState) : AppState :=
  { s with statusBox :=
      { textContent := message
        classList := [js "status", type].filter (fun c => c != js "hidden") } }

/-- The function `clearStatus()`. -/
def clearStatus (s : AppState) : AppState :=
  { s with statusBox :=
      { s.statusBox with
        classList :=
          if js "hidden" ∈ s.statusBox.classList then s.statusBox.classList
          else s.statusBox.classList ++ [js "hidden"] } }

/-- The function `clearResults()`. -/
def clearResults (s : AppState) : AppState :=
  { s with
    bugsTableBody := []
    explanationBox := []
    fixedCodeBox := []
    optimizedCodeBox := []
    timeComplexity := []
    spaceComplexity := []
    testsList := [] }

/-- The function `clearCode()`; the line-number gutter and the metrics tiles it
refreshes are not part of `AppState`. -/
def clearCode (s : AppState) : AppState :=
  clearResults { s with codeInput := [] }

/-! ## Recovering a line number from a message

The two patterns are `/line\s+(\d+)/i` and `/\b(\d+)\s*(?:line|ln)/i`.  The classes
`\s`, `\d` and the letter `l` are pairwise disjoint, so at a given start position a
backtracking matcher succeeds exactly when the greedy choice (maximal runs) does, and
group 1 is then the maximal run of digits. -/

/-- A pattern letter (given in lower case) against one unit under the flag `i`. -/
def eqIgnoreCase (lower c : Nat) : Bool :=
  c == lower || c + 32 == lower

/-- Match the letters of `w` at the start of `s`, ignoring case; the rest of `s`. -/
def stripWord : List Nat → JsString → Option JsString
  | [], s => some s
  | _ :: _, [] => none
  | p :: w, c :: s => if eqIgnoreCase p c then stripWord w s else none

/-- The pattern `line\s+(\d+)` (flag `i`) anchored at the start of `s`: group 1. -/
def matchLineDigitsAt (s : JsString) : Option JsString :=
  match stripWord (js "line") s with
  | none => none
  | some r =>
    let ws := r.takeWhile isWhiteSpace
    let d := (r.dropWhile isWhiteSpace).takeWhile isDigit
    if ws.isEmpty || d.isEmpty then none else some d

/-- Group 1 of `message.match(/line\s+(\d+)/i)`: the leftmost start position that
matches wins; `none` is the result `null`. -/
def matchLineDigits : JsString → Option JsString
  | [] => none
  | c :: s =>
    match matchLineDigitsAt (c :: s) with
    | some d => some d
    | none => matchLineDigits s

/-- The pattern `(\d+)\s*(?:line|ln)` (flag `i`) anchored at the start of `s`:
group 1. -/
def matchDigitsLineAt (s : JsString) : Option JsString :=
  let d := s.takeWhile isDigit
  let r := (s.dropWhile isDigit).dropWhile isWhiteSpace
  if d.isEmpty then none
  else if (stripWord (js "line") r).isSome || (stripWord (js "ln") r).isSome then some d
  else none

/-- Group 1 of `message.match(/\b(\d+)\s*(?:line|ln)/i)` on the rest `s` of the
message, `prev` being the unit before it (`none` at the start): `\b` holds where
exactly one of the two neighbours is a word character. -/
def matchDigitsLine (prev : Option Nat) : JsString → Option JsString
  | [] => none
  | c :: s =>
    let before := match prev with
      | none => false
      | some p => isWordChar p
    let found := if before != isWordChar c then matchDigitsLineAt (c :: s) else none
    match found with
    | some d => some d
    | none => matchDigitsLine (some c) s

/-- The value `lineMatch` with group 1 extracted. -/
def lineMatch (message : JsString) : Option JsString :=
  match matchLineDigits message with
  | some d => some d
  | none => matchDigitsLine none message

/-! ## Rendering a result -/

/-- The cell `tdLine` of a bug row.  `bug.message.match` raises a `TypeError` unless
the message is a string. -/
def lineCell (env : Env) (bug : Bug) : Except JsError Cell :=
  let recovered : Except JsError Cell :=
    match bug.message with
    | some (.str m) =>
      let found := lineMatch m
      .ok { body := .text (found.getD (js "-"))
            opacity := if found.isSome then js "1" else js "0.5" }
    | _ => .error (.typeError env.typeErrorMessage)
  match bug.line with
  | none => recovered
  | some .null => recovered
  | some v => .ok { body := .text v.toText, fontWeight := js "600" }

/-- One iteration of the loop over `data.bugs`: the row `tr`. -/
def bugRow (env : Env) (bug : Bug) : Except JsError Row :=
  match lineCell env bug with
  | .error e => .error e
  | .ok tdLine =>
    let tdType : Cell := { body := .text (orText bug.type (js "Info")) }
    let tdMsg : Cell := { body := .text (orText bug.message []) }
    let tdDetails : Cell := { body := .button (js "details-btn") [0x2139, 0xFE0F] }
    .ok [tdLine, tdType, tdMsg, tdDetails]

/-- The loop over `data.bugs`, filling `bugsFragment`; it stops at the first
exception. -/
def bugRows (env : Env) : List Bug → Except JsError (List Row)
  | [] => .ok []
  | bug :: rest =>
    match bugRow env bug with
    | .error e => .error e
    | .ok tr =>
      match bugRows env rest with
      | .error e => .error e
      | .ok trs => .ok (tr :: trs)

/-- The single row of the `else` branch. -/
def noBugsRow : Row :=
  [{ body := .text (js "No bugs detected."), colSpan := 4 }]

/-- The content of `bugsFragment`: `data.bugs && data.bugs.length > 0` selects the
loop, anything else the informational row. -/
def bugsFragment (env : Env) (data : Body) : Except JsError (List Row) :=
  match data.fields.bugs with
  | some (bug :: rest) => bugRows env (bug :: rest)
  | _ => .ok [noBugsRow]

/-- The text of one `li` of the tests list. -/
def testText (t : TestCase) : JsString :=
  optText t.description ++ js " | input: " ++ optText t.input ++
    js " | expected: " ++ optText t.expected_output

/-- Run `f` unless an exception is already pending. -/
def andThen (r : AppState × Option JsError)
    (f : AppState → AppState × Option JsError) : AppState × Option JsError :=
  match r.2 with
  | some _ => r
  | none => f r.1

/-- The statement `if (hljs) hljs.highlightElement(box)`: it leaves the text of the
box as it is, and raises a `ReferenceError` when `hljs` is not declared. -/
def highlight (env : Env) (s : AppState) : AppState × Option JsError :=
  match env.hljs with
  | none => (s, some (.referenceError env.referenceErrorMessage))
  | some _ => (s, none)

/-- Lines 424-472: build the bug rows and append them to the table body. -/
def renderBugs (env : Env) (data : Body) (s : AppState) : AppState × Option JsError :=
  match bugsFragment env data with
  | .error e => (s, some e)
  | .ok rows => ({ s with bugsTableBody := s.bugsTableBody ++ rows }, none)

/-- Line 474. -/
def renderExplanation (data : Body) (s : AppState) : AppState × Option JsError :=
  if truthy data.fields.explanation then
    ({ s with explanationBox := optText data.fields.explanation }, none)
  else (s, none)

/-- Lines 475-478. -/
def renderFixed (env : Env) (data : Body) (s : AppState) : AppState × Option JsError :=
  if truthy data.fields.fixed_code then
    highlight env { s with fixedCodeBox := optText data.fields.fixed_code }
  else (s, none)

/-- Lines 479-482. -/
def renderOptimized (env : Env) (data : Body) (s : AppState) :
    AppState × Option JsError :=
  if truthy data.fields.optimized_code then
    highlight env { s with optimizedCodeBox := optText data.fields.optimized_code }
  else (s, none)

/-- Lines 484-487. -/
def renderComplexity (data : Body) (s : AppState) : AppState × Option JsError :=
  match data.fields.complexity with
  | none => (s, none)
  | some c =>
    let s := if truthy c.time then { s with timeComplexity := optText c.time } else s
    let s := if truthy c.space then { s with spaceComplexity := optText c.space } else s
    (s, none)

/-- Lines 489-497. -/
def renderTests (data : Body) (s : AppState) : AppState × Option JsError :=
  match data.fields.tests with
  | none => (s, none)
  | some tests => ({ s with testsList := s.testsList ++ tests.map testText }, none)

/-- Lines 419-497: what the `try` block does with a truthy `data`. -/
def renderResult (env : Env) (language code : JsString) (data : Body) (s : AppState) :
    AppState × Option JsError :=
  let s := clearStatus s
  let s := setStatus (orText data.fields.message (js "Analysis complete.")) (js "info") s
  let s := saveToHistory env language code data s
  andThen (andThen (andThen (andThen (andThen (renderBugs env data s)
    (renderExplanation data)) (renderFixed env data)) (renderOptimized env data))
    (renderComplexity data)) (renderTests data)

/-- The call `fetch(...)` of line 403: the request leaves before the run suspends. -/
def sendRequest (language code : JsString) (s : AppState) : AppState :=
  { s with requests := s.requests ++
    [{ url := API_BASE_URL ++ js "/api/debug", language := language, code := code }] }

/-- Lines 408-497: the `try` block from the point where `fetch` has settled, on the
state `s` that the page is in by then; the state when the block is left, and the
exception it is left with, if any.  Between `await fetch` and `await res.json()` the
run writes nothing, so the whole continuation acts at the moment the last of the two
promises settles. -/
def afterFetch (env : Env) (outcome : FetchOutcome) (language code : JsString)
    (s : AppState) : AppState × Option JsError :=
  match outcome with
  | .rejected e => (s, some e)
  | .response status body =>
    if !statusOk status then
      (s, some (.error (js "HTTP error! status: " ++ decimal status)))
    else
      match body with
      | .error e => (s, some e)
      | .ok data =>
        if !data.truthy then (s, some (.error (js "No response data received")))
        else renderResult env language code data s

/-- The `try` block of `analyzeCode` when no other handler runs while it is
suspended. -/
def tryBlock (env : Env) (outcome : FetchOutcome) (language code : JsString)
    (s : AppState) : AppState × Option JsError :=
  afterFetch env outcome language code (sendRequest language code s)

/-- Lines 398-400 of `analyzeCode`: what runs before the `try` block. -/
def beginAnalysis (s : AppState) : AppState :=
  let s := { s with analyzeBtnDisabled := true }
  let s := clearResults s
  setStatus (js "Analyzing code, please wait...") (js "info") s

/-- The `catch` and `finally` blocks of `analyzeCode`, applied to the way the `try`
block was left. -/
def endAnalysis (r : AppState × Option JsError) : AppState :=
  let s := match r.2 with
    | some error => setStatus (js "Error: " ++ error.message) (js "error") r.1
    | none => r.1
  { s with analyzeBtnDisabled := false }

/-- The local constants `language` and `code` of a run of `analyzeCode` that is
suspended at `await fetch(...)`. -/
structure PendingRun where
  language : JsString
  code : JsString
  deriving DecidableEq, Repr

/-- The function `analyzeCode()` up to `await fetch(...)` (lines 389-407).  On blank
code the run ends here (`none`); otherwise it disables the button, clears the results,
shows the progress status, sends the request and suspends. -/
def analyzeStart (s : AppState) : AppState × Option PendingRun :=
  let language := s.languageSelect
  let code := trim s.codeInput
  if code.isEmpty then
    (setStatus (js "Please enter some code before analyzing.") (js "error") s, none)
  else
    (sendRequest language code (beginAnalysis s),
      some { language := language, code := code })

/-- The continuation of a suspended run (lines 408-505), on the state `s` that the
page is in when the request has settled. -/
def analyzeResume (env : Env) (outcome : FetchOutcome) (run : PendingRun)
    (s : AppState) : AppState :=
  endAnalysis (afterFetch env outcome run.language run.code s)

/-- The function `analyzeCode()` run to completion with no other handler in between:
the continuation resumes on the state that the first part left. -/
def analyzeCode (env : Env) (outcome : FetchOutcome) (s : AppState) : AppState :=
  match analyzeStart s with
  | (s, none) => s
  | (s, some run) => analyzeResume env outcome run s

/-! ## Triggers -/

/-- The click listener of `analyzeBtn`, with the run brought to completion. -/
def analyzeBtnClick (env : Env) (outcome : FetchOutcome) (s : AppState) : AppState :=
  analyzeCode env outcome s

/-- The fields of a `keydown` event that the document listener reads. -/
structure KeyEvent where
  ctrlKey : Bool
  metaKey : Bool
  shiftKey : Bool
  key : JsString
  deriving DecidableEq, Repr

/-- The `keydown` listener of the document (lines 273-288) up to the point where it
returns: a run that Ctrl/Cmd+Enter starts is left suspended.  The listener does not
look at `analyzeBtn.disabled`. -/
def documentKeydownStart (e : KeyEvent) (s : AppState) : AppState × Option PendingRun :=
  let r := if (e.ctrlKey || e.metaKey) && e.key == js "Enter" then
      analyzeStart s else (s, none)
  let s := r.1
  let s := if (e.ctrlKey || e.metaKey) && e.key == js "k" then clearCode s else s
  let s := if (e.ctrlKey || e.metaKey) && e.shiftKey && e.key == js "T" then
      themeToggleClick s else s
  (s, r.2)

/-- The callback wrapped by `debouncedAutoAnalyze` up to the point where it returns.
It does not look at `analyzeBtn.disabled` either. -/
def debouncedAutoAnalyzeStart (s : AppState) : AppState × Option PendingRun :=
  if s.settings.autoAnalyze && !(trim s.codeInput).isEmpty then analyzeStart s
  else (s, none)

/-- The `keydown` listener of the document (lines 273-288), with the run it starts
brought to completion. -/
def documentKeydown (env : Env) (outcome : FetchOutcome) (e : KeyEvent)
    (s : AppState) : AppState :=
  let s := if (e.ctrlKey || e.metaKey) && e.key == js "Enter" then
      analyzeCode env outcome s else s
  let s := if (e.ctrlKey || e.metaKey) && e.key == js "k" then clearCode s else s
  let s := if (e.ctrlKey || e.metaKey) && e.shiftKey && e.key == js "T" then
      themeToggleClick s else s
  s

/-- The callback wrapped by `debouncedAutoAnalyze`, run when its timer fires, with the
run it starts brought to completion. -/
def debouncedAutoAnalyze (env : Env) (outcome : FetchOutcome) (s : AppState) :
    AppState :=
  if s.settings.autoAnalyze && !(trim s.codeInput).isEmpty then
    analyzeCode env outcome s
  else s


/-! ## Notions used in the statements -/

/-- The code text is empty or consists only of whitespace. -/
def isBlank (code : JsString) : Bool :=
  code.all isWhiteSpace

/-- Class list of a status of the error type. -/
def errorClasses : List JsString := [js "status", js "error"]

/-- Class list of a status of the info type. -/
def infoClasses : List JsString := [js "status", js "info"]

/-- The request fails: `fetch` rejects, the status is not a success status, the body
cannot be parsed, or the parsed body is falsy (`null`, `false`, `0`, `""`). -/
def requestFails : FetchOutcome → Bool
  | .rejected _ => true
  | .response _ (.error _) => true
  | .response status (.ok data) => !statusOk status || !data.truthy

/-- A runtime used in the examples. -/
def exampleEnv : Env :=
  { now := 1700000000000
    nowText := js "11/14/2023, 10:13:20 PM"
    hljs := some true
    typeErrorMessage := js "Cannot read properties of undefined (reading 'match')"
    referenceErrorMessage := js "hljs is not defined" }

/-- A freshly loaded page holding `code` in the text area, with auto-analyze on. -/
def exampleState (code : JsString) : AppState :=
  { codeInput := code
    languageSelect := js "Python"
    analyzeBtnDisabled := false
    statusBox := { textContent := [], classList := [js "status", js "hidden"] }
    bugsTableBody := []
    explanationBox := []
    fixedCodeBox := []
    optimizedCodeBox := []
    timeComplexity := []
    spaceComplexity := []
    testsList := []
    settings := { theme := js "dark", autoAnalyze := true }
    localStorage := { theme := some (js "dark"), history := none }
    dataTheme := js "dark"
    themeToggleText := [0x2600, 0xFE0F]
    historyList := []
    requests := [] }

/-- A stored history of `n` entries with ids `0 .. n-1`. -/
def exampleHistory (n : Nat) : List HistoryEntry :=
  (List.range n).map fun i =>
    { id := i, timestamp := js "t", language := js "Python", code := js "x",
      fullCode := js "x", bugCount := 0 }

/-- A page whose stored history is `exampleHistory n`. -/
def historyState (n : Nat) : AppState :=
  { exampleState (js "x") with
    localStorage := { theme := some (js "dark"), history := some (exampleHistory n) } }

/-- A successful response that reports one bug carrying only a `type`, together with
an explanation: `{"bugs": [{"type": "Logic"}], "explanation": "Off by one."}`. -/
def bugWithoutMessage : Body :=
  .obj { bugs := some [{ type := some (.str (js "Logic")) }]
         explanation := some (.str (js "Off by one.")) }

/-- A page whose persisted theme is the string `blue`, as loaded by the script:
`Settings.theme` is read from storage and `initializeApp` applies it. -/
def blueState : AppState :=
  applyTheme (initialTheme (some (js "blue")))
    { exampleState (js "x") with localStorage := { theme := some (js "blue"), history := none } }

/-- The event of pressing Ctrl+Enter. -/
def ctrlEnter : KeyEvent :=
  { ctrlKey := true, metaKey := false, shiftKey := false, key := js "Enter" }

/-- Two overlapping runs: a click on the button starts the first; while its request is
in flight Ctrl+Enter starts the second; then the first response arrives, then the
second. -/
def overlappingRuns (env : Env) (first second : FetchOutcome) (s : AppState) :
    AppState :=
  match analyzeStart s with
  | (s, none) => s
  | (s, some run1) =>
    match documentKeydownStart ctrlEnter s with
    | (s, none) => analyzeResume env first run1 s
    | (s, some run2) => analyzeResume env second run2 (analyzeResume env first run1 s)

/-- Lower-case form of an ASCII letter; other units are left alone. -/
def lowerAscii (c : Nat) : Nat :=
  if 0x41 ≤ c ∧ c ≤ 0x5A then c + 32 else c

/-- From index `i` the message reads: the word "line" in any letter case, then
whitespace, then the digit run `d`, which ends where the digits end. -/
def LineOccurrence (m : JsString) (i : Nat) (d : JsString) : Prop :=
  ∃ pre w ws rest, m = pre ++ w ++ ws ++ d ++ rest ∧ pre.length = i ∧
    w.map lowerAscii = js "line" ∧
    ws ≠ [] ∧ (∀ c ∈ ws, isWhiteSpace c = true) ∧
    d ≠ [] ∧ (∀ c ∈ d, isDigit c = true) ∧
    (∀ c, rest.head? = some c → isDigit c = false)

/-- From index `i` the message reads: the digit run `d`, starting at a word boundary,
then optional whitespace, then "line" or "ln" in any letter case. -/
def DigitsLineOccurrence (m : JsString) (i : Nat) (d : JsString) : Prop :=
  ∃ pre ws kw rest, m = pre ++ d ++ ws ++ kw ++ rest ∧ pre.length = i ∧
    (∀ p, pre.getLast? = some p → isWordChar p = false) ∧
    d ≠ [] ∧ (∀ c ∈ d, isDigit c = true) ∧
    (∀ c ∈ ws, isWhiteSpace c = true) ∧
    (kw.map lowerAscii = js "line" ∨ kw.map lowerAscii = js "ln")

/-- The loop body can build the line cell of this bug: the bug has a `line` other than
`null`, or its message is a string. -/
def Bug.renderable (bug : Bug) : Prop :=
  (∃ v, bug.line = some v ∧ v ≠ JsVal.null) ∨ (∃ m, bug.message = some (JsVal.str m))

/-- The text a pane shows for an optional field: the field when it is truthy, and
otherwise what the pane held. -/
def shown (field : Option JsVal) (before : JsString) : JsString :=
  if truthy field then optText field else before

/-- A successful response that reports two bugs, one with a line number and one whose
line is recovered from its message. -/
def twoBugs : Body :=
  .obj { bugs := some [{ line := some (.num (js "3") true), type := some (.str (js "Logic")),
                         message := some (.str (js "Off by one.")) },
                       { message := some (.str (js "Unused variable on line 7")) }] }

/-! ## Basic facts -/

theorem trim_eq_nil_iff (code : JsString) : trim code = [] ↔ isBlank code = true := by
  unfold trim isBlank
  rw [List.reverse_eq_nil_iff, List.dropWhile_eq_nil_iff, List.all_eq_true]
  constructor
  · intro h
    by_cases hd : code.dropWhile isWhiteSpace = []
    · exact List.dropWhile_eq_nil_iff.mp hd
    · exfalso
      have h1 := List.head_dropWhile_not isWhiteSpace code hd
      have h2 := h _ (List.mem_reverse.mpr (List.head_mem hd))
      simp [h2] at h1
  · intro h
    have : code.dropWhile isWhiteSpace = [] := List.dropWhile_eq_nil_iff.mpr h
    simp [this]

theorem trim_isEmpty (code : JsString) : (trim code).isEmpty = isBlank code := by
  rw [Bool.eq_iff_iff, List.isEmpty_iff, trim_eq_nil_iff]

theorem setStatus_error (m : JsString) (s : AppState) :
    setStatus m (js "error") s =
      { s with statusBox := { textContent := m, classList := errorClasses } } := by
  have h : [js "status", js "error"].filter (fun c => c != js "hidden") = errorClasses := by
    decide
  simp only [setStatus, h]

theorem setStatus_info (m : JsString) (s : AppState) :
    setStatus m (js "info") s =
      { s with statusBox := { textContent := m, classList := infoClasses } } := by
  have h : [js "status", js "info"].filter (fun c => c != js "hidden") = infoClasses := by
    decide
  simp only [setStatus, h]

/-- On blank code `analyzeCode` is a single `setStatus`. -/
theorem analyzeCode_of_blank (env : Env) (outcome : FetchOutcome) (s : AppState)
    (h : isBlank s.codeInput = true) :
    analyzeCode env outcome s =
      { s with statusBox :=
          { textContent := js "Please enter some code before analyzing."
            classList := errorClasses } } := by
  have e : analyzeCode env outcome s =
      setStatus (js "Please enter some code before analyzing.") (js "error") s := by
    simp only [analyzeCode, analyzeStart, trim_isEmpty, h, if_true]
  rw [e, setStatus_error]

/-! ## Blank input -/

/-- C1: on code that is empty or only whitespace, `analyzeCode` sets the status to the
error type with the message "Please enter some code before analyzing." and changes
nothing else: no request is issued, and the disabled flag of the button, the result
panes and the stored history are as before. -/
theorem analyzeCode_blank (env : Env) (outcome : FetchOutcome) (s : AppState)
    (h : isBlank s.codeInput = true) :
    analyzeCode env outcome s =
        { s with statusBox :=
            { textContent := js "Please enter some code before analyzing."
              classList := [js "status", js "error"] } } ∧
      (analyzeCode env outcome s).requests = s.requests ∧
      (analyzeCode env outcome s).analyzeBtnDisabled = s.analyzeBtnDisabled ∧
      (analyzeCode env outcome s).bugsTableBody = s.bugsTableBody ∧
      (analyzeCode env outcome s).explanationBox = s.explanationBox ∧
      (analyzeCode env outcome s).fixedCodeBox = s.fixedCodeBox ∧
      (analyzeCode env outcome s).optimizedCodeBox = s.optimizedCodeBox ∧
      (analyzeCode env outcome s).timeComplexity = s.timeComplexity ∧
      (analyzeCode env outcome s).spaceComplexity = s.spaceComplexity ∧
      (analyzeCode env outcome s).testsList = s.testsList ∧
      (analyzeCode env outcome s).localStorage.history = s.localStorage.history := by
  rw [analyzeCode_of_blank env outcome s h]
  exact ⟨rfl, rfl, rfl, rfl, rfl, rfl, rfl, rfl, rfl, rfl, rfl⟩

theorem analyzeCode_blank_witness :
    (analyzeCode exampleEnv (.rejected (.typeError (js "Failed to fetch")))
        (exampleState (js " \t\n"))).requests = [] :=
  (analyzeCode_blank exampleEnv _ (exampleState (js " \t\n")) (by decide)).2.1

/-- C2, as the code has it: on blank code the button click and the Ctrl/Cmd+Enter
shortcut report the error status and send nothing, while the auto-analyze timer
leaves the whole state untouched: it sends nothing and reports nothing. -/
theorem triggers_blank (env : Env) (outcome : FetchOutcome) (e : KeyEvent)
    (s : AppState) (h : isBlank s.codeInput = true)
    (hmod : (e.ctrlKey || e.metaKey) = true) (hkey : e.key = js "Enter") :
    (analyzeBtnClick env outcome s).statusBox =
        { textContent := js "Please enter some code before analyzing."
          classList := [js "status", js "error"] } ∧
      (analyzeBtnClick env outcome s).requests = s.requests ∧
      (documentKeydown env outcome e s).statusBox =
        { textContent := js "Please enter some code before analyzing."
          classList := [js "status", js "error"] } ∧
      (documentKeydown env outcome e s).requests = s.requests ∧
      debouncedAutoAnalyze env outcome s = s := by
  have hk : (js "Enter" == js "k") = false := by decide
  have hT : (js "Enter" == js "T") = false := by decide
  have hE : (js "Enter" == js "Enter") = true := by decide
  have e1 : documentKeydown env outcome e s = analyzeCode env outcome s := by
    simp only [documentKeydown, hmod, hkey, hk, hT, hE, Bool.and_false, Bool.and_true,
      Bool.true_and, if_true, Bool.false_eq_true, if_false]
  have e2 : debouncedAutoAnalyze env outcome s = s := by
    simp only [debouncedAutoAnalyze, trim_isEmpty, h, Bool.not_true, Bool.and_false,
      Bool.false_eq_true, if_false]
  rw [e1, e2, analyzeBtnClick, analyzeCode_of_blank env outcome s h]
  exact ⟨rfl, rfl, rfl, rfl, rfl⟩

theorem triggers_blank_witness :
    (documentKeydown exampleEnv (.rejected (.typeError (js "Failed to fetch")))
        ctrlEnter
        (exampleState (js "  "))).statusBox.classList = [js "status", js "error"] :=
  congrArg StatusBox.classList
    (triggers_blank exampleEnv _ ctrlEnter (exampleState (js "  ")) (by decide)
      (by decide) rfl).2.2.1

/-- C2 as stated fails for the timer: with auto-analyze enabled and blank code, the
firing of the debounced timer leaves the status box hidden and empty; no error is
reported. -/
theorem autoAnalyze_blank_no_error :
    isBlank (exampleState (js "  ")).codeInput = true ∧
      (exampleState (js "  ")).settings.autoAnalyze = true ∧
      (debouncedAutoAnalyze exampleEnv (.rejected (.typeError (js "Failed to fetch")))
        (exampleState (js "  "))).statusBox =
        { textContent := [], classList := [js "status", js "hidden"] } ∧
      (debouncedAutoAnalyze exampleEnv (.rejected (.typeError (js "Failed to fetch")))
        (exampleState (js "  "))).statusBox.classList ≠ [js "status", js "error"] := by
  decide

/-! ## History -/

/-- C3: after `saveToHistory` the stored history is the first 20 elements of the new
entry followed by the previous list; so it has at most 20 entries, the new entry is
its head, and a previous list of 20 entries loses its last one. -/
theorem saveToHistory_keeps_first_20 (env : Env) (language code : JsString)
    (result : Body) (s : AppState) :
    (saveToHistory env language code result s).localStorage.history =
        some ((newEntry env language code result :: storedHistory s).take 20) ∧
      (storedHistory (saveToHistory env language code result s)).length ≤ 20 ∧
      (storedHistory (saveToHistory env language code result s)).head? =
        some (newEntry env language code result) ∧
      ((storedHistory s).length = 20 →
        storedHistory (saveToHistory env language code result s) =
          newEntry env language code result :: (storedHistory s).dropLast) := by
  have e : storedHistory (saveToHistory env language code result s) =
      (newEntry env language code result :: storedHistory s).take 20 := rfl
  refine ⟨rfl, ?_, ?_, ?_⟩
  · rw [e, List.length_take]
    exact Nat.min_le_left _ _
  · rw [e]
    rfl
  · intro h
    rw [e, List.dropLast_eq_take, h]
    rfl

theorem saveToHistory_keeps_first_20_witness :
    storedHistory (saveToHistory exampleEnv (js "Python") (js "x") (.obj {})
        (historyState 20)) =
      newEntry exampleEnv (js "Python") (js "x") (.obj {}) :: exampleHistory 19 :=
  (saveToHistory_keeps_first_20 exampleEnv (js "Python") (js "x") (.obj {})
    (historyState 20)).2.2.2 (by decide)

/-- C4: the preview stored in the new entry (the head of the stored history) is the
first 100 units of the code followed by "..." when the code is longer than 100
units, and the code itself otherwise. -/
theorem saveToHistory_preview (env : Env) (language code : JsString)
    (result : Body) (s : AppState) :
    (storedHistory (saveToHistory env language code result s)).head?.map
        HistoryEntry.code =
      some (if code.length > 100 then code.take 100 ++ js "..." else code) := by
  have e : (storedHistory (saveToHistory env language code result s)).head?.map
      HistoryEntry.code =
      some (code.take 100 ++ (if code.length > 100 then js "..." else [])) := rfl
  rw [e]
  by_cases h : code.length > 100
  · simp only [h, if_true]
  · simp only [h, if_false, List.append_nil]
    rw [List.take_of_length_le (by omega)]

/-! ## Theme -/

/-- C5, as the code has it: when the persisted theme is `dark` or `light` and
`Settings.theme` agrees with it, two theme toggles leave both as they were. -/
theorem themeToggle_twice (s : AppState)
    (ht : s.settings.theme = js "dark" ∨ s.settings.theme = js "light")
    (hp : s.localStorage.theme = some s.settings.theme) :
    (themeToggleClick (themeToggleClick s)).localStorage.theme = s.localStorage.theme ∧
      (themeToggleClick (themeToggleClick s)).settings.theme = s.settings.theme := by
  have hne : ¬ (js "light" = js "dark") := by decide
  rw [hp]
  rcases ht with h | h
  · simp [themeToggleClick, applyTheme, h, hne]
  · simp [themeToggleClick, applyTheme, h, hne]

theorem themeToggle_twice_witness :
    (themeToggleClick (themeToggleClick (exampleState (js "x")))).localStorage.theme =
      some (js "dark") :=
  (themeToggle_twice (exampleState (js "x")) (Or.inl rfl) rfl).1

/-- C5 as stated fails: with the string `blue` persisted under `theme`, two toggles
leave `light` persisted and in `Settings.theme`. -/
theorem themeToggle_twice_blue :
    blueState.localStorage.theme = some (js "blue") ∧
      blueState.settings.theme = js "blue" ∧
      (themeToggleClick (themeToggleClick blueState)).localStorage.theme =
        some (js "light") ∧
      (themeToggleClick (themeToggleClick blueState)).settings.theme = js "light" ∧
      (themeToggleClick (themeToggleClick blueState)).localStorage.theme ≠
        blueState.localStorage.theme := by
  decide

/-! ## The request/render cycle -/

/-- On code that is not blank `analyzeCode` runs the three phases. -/
theorem analyzeCode_of_not_blank (env : Env) (outcome : FetchOutcome) (s : AppState)
    (h : isBlank s.codeInput = false) :
    analyzeCode env outcome s =
      endAnalysis (tryBlock env outcome s.languageSelect (trim s.codeInput)
        (beginAnalysis s)) := by
  simp only [analyzeCode, analyzeStart, analyzeResume, tryBlock, trim_isEmpty, h,
    Bool.false_eq_true, if_false]

theorem endAnalysis_bugsTableBody (r : AppState × Option JsError) :
    (endAnalysis r).bugsTableBody = r.1.bugsTableBody := by
  unfold endAnalysis
  split <;> rfl

theorem andThen_bugsTableBody (r : AppState × Option JsError)
    (f : AppState → AppState × Option JsError)
    (hf : ∀ s, (f s).1.bugsTableBody = s.bugsTableBody) :
    (andThen r f).1.bugsTableBody = r.1.bugsTableBody := by
  unfold andThen
  split
  · rfl
  · exact hf _

theorem renderExplanation_bugsTableBody (data : Body) (s : AppState) :
    (renderExplanation data s).1.bugsTableBody = s.bugsTableBody := by
  unfold renderExplanation
  split <;> rfl

theorem highlight_fst (env : Env) (s : AppState) : (highlight env s).1 = s := by
  unfold highlight
  split <;> rfl

theorem renderFixed_bugsTableBody (env : Env) (data : Body) (s : AppState) :
    (renderFixed env data s).1.bugsTableBody = s.bugsTableBody := by
  unfold renderFixed
  split
  · rw [highlight_fst]
  · rfl

theorem renderOptimized_bugsTableBody (env : Env) (data : Body) (s : AppState) :
    (renderOptimized env data s).1.bugsTableBody = s.bugsTableBody := by
  unfold renderOptimized
  split
  · rw [highlight_fst]
  · rfl

theorem renderComplexity_bugsTableBody (data : Body) (s : AppState) :
    (renderComplexity data s).1.bugsTableBody = s.bugsTableBody := by
  unfold renderComplexity
  split
  · rfl
  · dsimp only
    split <;> split <;> rfl

theorem renderTests_bugsTableBody (data : Body) (s : AppState) :
    (renderTests data s).1.bugsTableBody = s.bugsTableBody := by
  unfold renderTests
  split <;> rfl

/-- The rows in the table after `renderResult` are those of `renderBugs`. -/
theorem renderResult_bugsTableBody (env : Env) (language code : JsString) (data : Body)
    (s : AppState) :
    (renderResult env language code data s).1.bugsTableBody =
      (renderBugs env data s).1.bugsTableBody := by
  unfold renderResult
  rw [andThen_bugsTableBody _ _ (renderTests_bugsTableBody data),
    andThen_bugsTableBody _ _ (renderComplexity_bugsTableBody data),
    andThen_bugsTableBody _ _ (renderOptimized_bugsTableBody env data),
    andThen_bugsTableBody _ _ (renderFixed_bugsTableBody env data),
    andThen_bugsTableBody _ _ (renderExplanation_bugsTableBody data)]
  unfold renderBugs
  split <;> rfl

/-- The `try` block on a successful response with a truthy body. -/
theorem tryBlock_of_success (env : Env) (status : Nat) (data : Body)
    (language code : JsString) (s : AppState)
    (hok : statusOk status = true) (hdata : data.truthy = true) :
    tryBlock env (.response status (.ok data)) language code s =
      renderResult env language code data
        { s with requests := s.requests ++
          [{ url := API_BASE_URL ++ js "/api/debug", language := language, code := code }] } := by
  simp only [tryBlock, afterFetch, sendRequest, hok, hdata, Bool.not_true,
    Bool.false_eq_true, if_false]

/-- C8: whatever the request and the rendering do, a run of `analyzeCode` on code that
is not blank finishes with the button enabled. -/
theorem analyzeCode_enables_button (env : Env) (outcome : FetchOutcome) (s : AppState)
    (hcode : isBlank s.codeInput = false) :
    (analyzeCode env outcome s).analyzeBtnDisabled = false := by
  rw [analyzeCode_of_not_blank env outcome s hcode]
  rfl

theorem analyzeCode_enables_button_witness :
    (analyzeCode exampleEnv (.response 200 (.ok bugWithoutMessage))
        { exampleState (js "x = 1") with analyzeBtnDisabled := true }).analyzeBtnDisabled =
      false :=
  analyzeCode_enables_button exampleEnv _ _ (by decide)

/-- A failing request leaves the `try` block with an exception, having only logged
the request. -/
theorem tryBlock_of_fails (env : Env) (outcome : FetchOutcome)
    (language code : JsString) (s : AppState) (hfail : requestFails outcome = true) :
    ∃ e, tryBlock env outcome language code s =
      ({ s with requests := s.requests ++
          [{ url := API_BASE_URL ++ js "/api/debug", language := language, code := code }] },
        some e) := by
  cases outcome with
  | rejected e => exact ⟨e, rfl⟩
  | response status body =>
    by_cases hok : statusOk status = true
    · cases body with
      | error e =>
        refine ⟨e, ?_⟩
        simp only [tryBlock, afterFetch, sendRequest, hok, Bool.not_true,
          Bool.false_eq_true, if_false]
      | ok data =>
        have hd : data.truthy = false := by
          simpa [requestFails, hok] using hfail
        refine ⟨.error (js "No response data received"), ?_⟩
        simp only [tryBlock, afterFetch, sendRequest, hok, hd, Bool.not_true,
          Bool.not_false, Bool.false_eq_true, if_false, if_true]
    · refine ⟨.error (js "HTTP error! status: " ++ decimal status), ?_⟩
      have hok2 : statusOk status = false := by simpa using hok
      simp only [tryBlock, afterFetch, sendRequest, hok2, Bool.not_false, if_true]

/-- C9: when the request fails on code that is not blank, the run ends with a status
of the error type reading "Error: " and the message of the exception, every result
pane is in its cleared state, and local storage (the history with it) is as before. -/
theorem analyzeCode_request_fails (env : Env) (outcome : FetchOutcome) (s : AppState)
    (hcode : isBlank s.codeInput = false) (hfail : requestFails outcome = true) :
    (analyzeCode env outcome s).statusBox.classList = [js "status", js "error"] ∧
      (∃ e : JsError,
        (analyzeCode env outcome s).statusBox.textContent = js "Error: " ++ e.message) ∧
      (analyzeCode env outcome s).bugsTableBody = [] ∧
      (analyzeCode env outcome s).explanationBox = [] ∧
      (analyzeCode env outcome s).fixedCodeBox = [] ∧
      (analyzeCode env outcome s).optimizedCodeBox = [] ∧
      (analyzeCode env outcome s).timeComplexity = [] ∧
      (analyzeCode env outcome s).spaceComplexity = [] ∧
      (analyzeCode env outcome s).testsList = [] ∧
      (analyzeCode env outcome s).localStorage = s.localStorage := by
  obtain ⟨e, he⟩ := tryBlock_of_fails env outcome s.languageSelect (trim s.codeInput)
    (beginAnalysis s) hfail
  rw [analyzeCode_of_not_blank env outcome s hcode, he]
  simp only [endAnalysis, setStatus_error]
  exact ⟨rfl, ⟨e, rfl⟩, rfl, rfl, rfl, rfl, rfl, rfl, rfl, rfl⟩

theorem analyzeCode_request_fails_witness :
    (analyzeCode exampleEnv (.response 500 (.ok (.obj {})))
        (historyState 3)).statusBox.classList = [js "status", js "error"] :=
  (analyzeCode_request_fails exampleEnv (.response 500 (.ok (.obj {}))) (historyState 3)
    (by decide) (by decide)).1

/-- C10 fails on the code: a successful response whose one bug has neither `line` nor
`message` ends the run in the error status, with an empty bug table and without the
explanation that the response carries, after the history entry was stored. -/
theorem analyzeCode_bug_without_message :
    (analyzeCode exampleEnv (.response 200 (.ok bugWithoutMessage))
        (exampleState (js "x = 1"))).statusBox =
      { textContent := js "Error: Cannot read properties of undefined (reading 'match')"
        classList := [js "status", js "error"] } ∧
    (analyzeCode exampleEnv (.response 200 (.ok bugWithoutMessage))
        (exampleState (js "x = 1"))).bugsTableBody = [] ∧
    (analyzeCode exampleEnv (.response 200 (.ok bugWithoutMessage))
        (exampleState (js "x = 1"))).explanationBox = [] ∧
    (storedHistory (analyzeCode exampleEnv (.response 200 (.ok bugWithoutMessage))
        (exampleState (js "x = 1")))).length = 1 := by
  decide

/-! ## Line numbers recovered from the message -/

theorem isDigit_iff (c : Nat) : isDigit c = true ↔ 0x30 ≤ c ∧ c ≤ 0x39 := by
  simp [isDigit]

theorem not_isWhiteSpace_of_isDigit {c : Nat} (h : isDigit c = true) :
    isWhiteSpace c = false := by
  rw [isDigit_iff] at h
  simp only [isWhiteSpace, Bool.or_eq_false_iff, beq_eq_false_iff_ne, Bool.and_eq_false_imp,
    decide_eq_true_eq, decide_eq_false_iff_not]
  omega

theorem isWordChar_of_isDigit {c : Nat} (h : isDigit c = true) : isWordChar c = true := by
  simp [isWordChar, h]

theorem eqIgnoreCase_iff {p c : Nat} (hp : 0x61 ≤ p ∧ p ≤ 0x7A) :
    eqIgnoreCase p c = true ↔ lowerAscii c = p := by
  simp only [eqIgnoreCase, lowerAscii, Bool.or_eq_true, beq_iff_eq]
  split <;> omega

/-- A unit that lower-cases to a letter is neither a digit nor whitespace. -/
theorem letter_not_digit_ws {p c : Nat} (hp : 0x61 ≤ p ∧ p ≤ 0x7A)
    (h : lowerAscii c = p) : isDigit c = false ∧ isWhiteSpace c = false := by
  have hc : c = p ∨ c + 32 = p := by
    unfold lowerAscii at h
    split at h <;> omega
  constructor
  · rw [← Bool.not_eq_true, isDigit_iff]
    omega
  · simp only [isWhiteSpace, Bool.or_eq_false_iff, beq_eq_false_iff_ne,
      Bool.and_eq_false_imp, decide_eq_true_eq, decide_eq_false_iff_not]
    omega

theorem takeWhile_dropWhile_append {p : Nat → Bool} (l₁ l₂ : List Nat)
    (h₁ : ∀ a ∈ l₁, p a = true) (h₂ : ∀ c, l₂.head? = some c → p c = false) :
    (l₁ ++ l₂).takeWhile p = l₁ ∧ (l₁ ++ l₂).dropWhile p = l₂ := by
  induction l₁ with
  | nil =>
    cases l₂ with
    | nil => simp
    | cons c t =>
      have := h₂ c rfl
      simp [List.takeWhile, List.dropWhile, this]
  | cons a t ih =>
    have ha := h₁ a (List.mem_cons_self _ _)
    have ih' := ih (fun x hx => h₁ x (List.mem_cons_of_mem _ hx))
    simp [List.takeWhile, List.dropWhile, ha, ih'.1, ih'.2]

theorem stripWord_iff (p : List Nat) (hp : ∀ x ∈ p, 0x61 ≤ x ∧ x ≤ 0x7A)
    (s r : JsString) :
    stripWord p s = some r ↔ ∃ w, s = w ++ r ∧ w.map lowerAscii = p := by
  induction p generalizing s with
  | nil =>
    simp only [stripWord, Option.some.injEq, List.map_eq_nil_iff]
    constructor
    · intro h
      exact ⟨[], by simp [h], rfl⟩
    · rintro ⟨w, h, rfl⟩
      simpa using h
  | cons x p ih =>
    have hx := hp x (List.mem_cons_self _ _)
    have ih' := ih (fun y hy => hp y (List.mem_cons_of_mem _ hy))
    cases s with
    | nil =>
      simp only [stripWord]
      constructor
      · intro h
        cases h
      · rintro ⟨w, h, hw⟩
        cases w with
        | nil => simp at hw
        | cons a t => simp at h
    | cons c s =>
      simp only [stripWord]
      constructor
      · intro h
        split at h
        · rename_i hc
          obtain ⟨w, rfl, hw⟩ := (ih' s).mp h
          exact ⟨c :: w, rfl, by simp [hw, (eqIgnoreCase_iff hx).mp hc]⟩
        · cases h
      · rintro ⟨w, h, hw⟩
        cases w with
        | nil => simp at hw
        | cons a t =>
          simp only [List.map_cons, List.cons.injEq] at hw
          simp only [List.cons_append, List.cons.injEq] at h
          obtain ⟨rfl, rfl⟩ := h
          rw [if_pos ((eqIgnoreCase_iff hx).mpr hw.1)]
          exact (ih' _).mpr ⟨t, rfl, hw.2⟩

theorem js_line_letters : ∀ x ∈ js "line", 0x61 ≤ x ∧ x ≤ 0x7A := by decide

theorem js_ln_letters : ∀ x ∈ js "ln", 0x61 ≤ x ∧ x ≤ 0x7A := by decide

theorem head?_append_of_ne_nil {l₁ l₂ : List Nat} (h : l₁ ≠ []) :
    (l₁ ++ l₂).head? = l₁.head? := by
  cases l₁ with
  | nil => exact absurd rfl h
  | cons a t => rfl

theorem head?_mem {l : List Nat} {c : Nat} (h : l.head? = some c) : c ∈ l := by
  cases l with
  | nil => cases h
  | cons a t =>
    simp only [List.head?_cons, Option.some.injEq] at h
    simp [h]

/-- What the anchored first pattern accepts, and its group 1. -/
theorem matchLineDigitsAt_iff (s d : JsString) :
    matchLineDigitsAt s = some d ↔
      ∃ w ws rest, s = w ++ ws ++ d ++ rest ∧ w.map lowerAscii = js "line" ∧
        ws ≠ [] ∧ (∀ c ∈ ws, isWhiteSpace c = true) ∧
        d ≠ [] ∧ (∀ c ∈ d, isDigit c = true) ∧
        (∀ c, rest.head? = some c → isDigit c = false) := by
  constructor
  · intro h
    unfold matchLineDigitsAt at h
    cases hs : stripWord (js "line") s with
    | none => simp [hs] at h
    | some r =>
      obtain ⟨w, rfl, hw⟩ := (stripWord_iff _ js_line_letters s r).mp hs
      simp only [hs] at h
      split at h
      · cases h
      · rename_i hne
        simp only [Bool.or_eq_true, List.isEmpty_iff, not_or] at hne
        simp only [Option.some.injEq] at h
        refine ⟨w, r.takeWhile isWhiteSpace,
          (r.dropWhile isWhiteSpace).dropWhile isDigit, ?_, hw, hne.1, ?_, ?_, ?_, ?_⟩
        · rw [← h, List.append_assoc, List.append_assoc, List.takeWhile_append_dropWhile,
            List.takeWhile_append_dropWhile]
        · intro c hc
          exact (List.mem_takeWhile_imp hc)
        · rw [← h]
          exact hne.2
        · intro c hc
          rw [← h] at hc
          exact (List.mem_takeWhile_imp hc)
        · intro c hc
          have := List.head?_dropWhile_not isDigit (r.dropWhile isWhiteSpace)
          rw [hc] at this
          simpa using this
  · rintro ⟨w, ws, rest, rfl, hw, hws, hwsall, hd, hdall, hrest⟩
    have hs : stripWord (js "line") (w ++ ws ++ d ++ rest) = some (ws ++ (d ++ rest)) :=
      (stripWord_iff _ js_line_letters _ _).mpr ⟨w, by simp, hw⟩
    have h1 := takeWhile_dropWhile_append (p := isWhiteSpace) ws (d ++ rest) hwsall
      (by
        intro c hc
        rw [head?_append_of_ne_nil hd] at hc
        exact not_isWhiteSpace_of_isDigit (hdall c (head?_mem hc)))
    have h2 := takeWhile_dropWhile_append (p := isDigit) d rest hdall hrest
    unfold matchLineDigitsAt
    simp only [hs, h1.1, h1.2, h2.1]
    have e1 : ws.isEmpty = false := by
      cases ws with
      | nil => exact absurd rfl hws
      | cons a t => rfl
    have e2 : d.isEmpty = false := by
      cases d with
      | nil => exact absurd rfl hd
      | cons a t => rfl
    simp [e1, e2]

theorem matchLineDigitsAt_nil : matchLineDigitsAt [] = none := by decide

/-- The first pattern finds nothing only when no start position matches. -/
theorem matchLineDigits_none {m : JsString} (h : matchLineDigits m = none) (i : Nat) :
    matchLineDigitsAt (m.drop i) = none := by
  induction m generalizing i with
  | nil => simpa using matchLineDigitsAt_nil
  | cons c s ih =>
    unfold matchLineDigits at h
    split at h
    · cases h
    · rename_i h0
      cases i with
      | zero => simpa using h0
      | succ i => simpa using ih h i

/-- The first pattern returns the group of the leftmost start position that matches. -/
theorem matchLineDigits_leftmost {m : JsString} {i : Nat} {d : JsString}
    (h : matchLineDigitsAt (m.drop i) = some d)
    (hmin : ∀ j, j < i → matchLineDigitsAt (m.drop j) = none) :
    matchLineDigits m = some d := by
  induction i generalizing m with
  | zero =>
    cases m with
    | nil => simp [matchLineDigitsAt_nil] at h
    | cons c s =>
      simp only [List.drop_zero] at h
      simp [matchLineDigits, h]
  | succ i ih =>
    cases m with
    | nil => simp [matchLineDigitsAt_nil] at h
    | cons c s =>
      have h0 : matchLineDigitsAt (c :: s) = none := by simpa using hmin 0 (Nat.succ_pos _)
      simp only [matchLineDigits, h0]
      apply ih
      · simpa using h
      · intro j hj
        simpa using hmin (j + 1) (Nat.succ_lt_succ hj)

/-- Whatever the first pattern returns is the group of some start position. -/
theorem matchLineDigits_some {m d : JsString} (h : matchLineDigits m = some d) :
    ∃ i, i ≤ m.length ∧ matchLineDigitsAt (m.drop i) = some d := by
  induction m with
  | nil => simp [matchLineDigits] at h
  | cons c s ih =>
    unfold matchLineDigits at h
    split at h
    · rename_i d' h0
      simp only [Option.some.injEq] at h
      subst h
      exact ⟨0, Nat.zero_le _, by simpa using h0⟩
    · obtain ⟨i, hi, hm⟩ := ih h
      exact ⟨i + 1, by simpa using hi, by simpa using hm⟩

/-- An occurrence in the words of the claim is a match of the anchored pattern. -/
theorem lineOccurrence_iff (m : JsString) (i : Nat) (d : JsString) :
    LineOccurrence m i d ↔ i ≤ m.length ∧ matchLineDigitsAt (m.drop i) = some d := by
  rw [matchLineDigitsAt_iff]
  constructor
  · rintro ⟨pre, w, ws, rest, rfl, rfl, h⟩
    refine ⟨by simp only [List.length_append]; omega, w, ws, rest, ?_, h⟩
    simp only [List.append_assoc]
    rw [List.drop_left]
  · rintro ⟨hi, w, ws, rest, hm, h⟩
    refine ⟨m.take i, w, ws, rest, ?_, List.length_take_of_le hi, h⟩
    simp only [List.append_assoc] at hm ⊢
    rw [← hm, List.take_append_drop]

theorem js_line_eq : js "line" = [108, 105, 110, 101] := by decide

theorem js_ln_eq : js "ln" = [108, 110] := by decide

/-- The keyword of the second pattern starts with the letter `l` in either case. -/
theorem keyword_head {kw : JsString}
    (h : kw.map lowerAscii = js "line" ∨ kw.map lowerAscii = js "ln") :
    ∃ a t, kw = a :: t ∧ isDigit a = false ∧ isWhiteSpace a = false := by
  cases kw with
  | nil =>
    rw [js_line_eq, js_ln_eq] at h
    simp at h
  | cons a t =>
    refine ⟨a, t, rfl, ?_⟩
    have ha : lowerAscii a = 108 := by
      rw [js_line_eq, js_ln_eq] at h
      rcases h with h | h <;> simp only [List.map_cons, List.cons.injEq] at h <;> exact h.1
    exact letter_not_digit_ws (p := 108) (by omega) ha

theorem not_isDigit_of_isWhiteSpace {c : Nat} (h : isWhiteSpace c = true) :
    isDigit c = false := by
  cases hd : isDigit c with
  | false => rfl
  | true =>
    rw [not_isWhiteSpace_of_isDigit hd] at h
    cases h

/-- What the anchored second pattern accepts, and its group 1. -/
theorem matchDigitsLineAt_iff (s d : JsString) :
    matchDigitsLineAt s = some d ↔
      ∃ ws kw rest, s = d ++ ws ++ kw ++ rest ∧
        d ≠ [] ∧ (∀ c ∈ d, isDigit c = true) ∧
        (∀ c ∈ ws, isWhiteSpace c = true) ∧
        (kw.map lowerAscii = js "line" ∨ kw.map lowerAscii = js "ln") := by
  constructor
  · intro h
    unfold matchDigitsLineAt at h
    simp only at h
    split at h
    · cases h
    · rename_i hne
      split at h
      · rename_i hkw
        simp only [Option.some.injEq] at h
        have hsplit : s = d ++ (((s.dropWhile isDigit).takeWhile isWhiteSpace) ++
            ((s.dropWhile isDigit).dropWhile isWhiteSpace)) := by
          rw [List.takeWhile_append_dropWhile, ← h, List.takeWhile_append_dropWhile]
        have hdne : d ≠ [] := by
          rw [← h]
          simpa [List.isEmpty_iff] using hne
        have hdall : ∀ c ∈ d, isDigit c = true := by
          intro c hc
          rw [← h] at hc
          exact List.mem_takeWhile_imp hc
        have hwsall : ∀ c ∈ (s.dropWhile isDigit).takeWhile isWhiteSpace,
            isWhiteSpace c = true := fun c hc => List.mem_takeWhile_imp hc
        simp only [Bool.or_eq_true, Option.isSome_iff_exists] at hkw
        rcases hkw with ⟨rest, hr⟩ | ⟨rest, hr⟩
        · obtain ⟨kw, hrk, hkwl⟩ := (stripWord_iff _ js_line_letters _ _).mp hr
          refine ⟨_, kw, rest, ?_, hdne, hdall, hwsall, Or.inl hkwl⟩
          rw [hrk] at hsplit
          simpa [List.append_assoc] using hsplit
        · obtain ⟨kw, hrk, hkwl⟩ := (stripWord_iff _ js_ln_letters _ _).mp hr
          refine ⟨_, kw, rest, ?_, hdne, hdall, hwsall, Or.inr hkwl⟩
          rw [hrk] at hsplit
          simpa [List.append_assoc] using hsplit
      · cases h
  · rintro ⟨ws, kw, rest, rfl, hd, hdall, hwsall, hkw⟩
    obtain ⟨a, t, rfl, had, haw⟩ := keyword_head hkw
    have h1 := takeWhile_dropWhile_append (p := isDigit) d (ws ++ (a :: t ++ rest)) hdall
      (by
        intro c hc
        cases ws with
        | nil =>
          simp only [List.nil_append, List.cons_append, List.head?_cons,
            Option.some.injEq] at hc
          rw [← hc]
          exact had
        | cons b u =>
          simp only [List.cons_append, List.head?_cons, Option.some.injEq] at hc
          rw [← hc]
          exact not_isDigit_of_isWhiteSpace (hwsall b (List.mem_cons_self _ _)))
    have h2 := takeWhile_dropWhile_append (p := isWhiteSpace) ws (a :: t ++ rest) hwsall
      (by
        intro c hc
        simp only [List.cons_append, List.head?_cons, Option.some.injEq] at hc
        rw [← hc]
        exact haw)
    have e : d ++ ws ++ a :: t ++ rest = d ++ (ws ++ (a :: t ++ rest)) := by
      simp [List.append_assoc]
    have e2 : d.isEmpty = false := by
      cases d with
      | nil => exact absurd rfl hd
      | cons a t => rfl
    have hstrip : (stripWord (js "line") (a :: t ++ rest)).isSome = true ∨
        (stripWord (js "ln") (a :: t ++ rest)).isSome = true := by
      rcases hkw with h | h
      · left
        rw [(stripWord_iff _ js_line_letters _ rest).mpr ⟨a :: t, rfl, h⟩]
        rfl
      · right
        rw [(stripWord_iff _ js_ln_letters _ rest).mpr ⟨a :: t, rfl, h⟩]
        rfl
    unfold matchDigitsLineAt
    simp only [e, h1.1, h1.2, h2.2, e2, Bool.false_eq_true, if_false]
    rw [if_pos (by simpa using hstrip)]

theorem matchDigitsLineAt_head {c : Nat} {s d : JsString}
    (h : matchDigitsLineAt (c :: s) = some d) : isWordChar c = true := by
  obtain ⟨ws, kw, rest, hs, hd, hdall, _⟩ := (matchDigitsLineAt_iff _ _).mp h
  cases d with
  | nil => exact absurd rfl hd
  | cons a t =>
    simp only [List.cons_append, List.cons.injEq] at hs
    rw [hs.1]
    exact isWordChar_of_isDigit (hdall a (List.mem_cons_self _ _))

theorem matchDigitsLineAt_nil : matchDigitsLineAt [] = none := by decide

/-- Whatever the second pattern returns is the group of a start position that lies
at a word boundary. -/
theorem matchDigitsLine_some {prev : Option Nat} {s d : JsString}
    (h : matchDigitsLine prev s = some d) :
    ∃ pre t, s = pre ++ t ∧ matchDigitsLineAt t = some d ∧
      (∀ p, (prev.toList ++ pre).getLast? = some p → isWordChar p = false) := by
  induction s generalizing prev with
  | nil => simp [matchDigitsLine] at h
  | cons c s ih =>
    unfold matchDigitsLine at h
    simp only at h
    split at h
    · rename_i d' hfound
      simp only [Option.some.injEq] at h
      subst h
      split at hfound
      · rename_i hb
        refine ⟨[], c :: s, rfl, hfound, ?_⟩
        have hc := matchDigitsLineAt_head hfound
        intro p hp
        cases prev with
        | none => simp at hp
        | some q =>
          simp only [Option.toList, List.append_nil, List.getLast?_singleton,
            Option.some.injEq] at hp
          subst hp
          simpa [hc] using hb
      · cases hfound
    · obtain ⟨pre, t, rfl, ht, hb⟩ := ih h
      refine ⟨c :: pre, t, rfl, ht, ?_⟩
      intro p hp
      apply hb p
      cases prev with
      | none => simpa using hp
      | some q =>
        simp only [Option.toList, List.singleton_append] at hp ⊢
        rw [List.getLast?_cons_cons] at hp
        exact hp

/-- A start position at a word boundary that matches makes the second pattern
succeed. -/
theorem matchDigitsLine_isSome (prev : Option Nat) (pre t : JsString) {d : JsString}
    (ht : matchDigitsLineAt t = some d)
    (hb : ∀ p, (prev.toList ++ pre).getLast? = some p → isWordChar p = false) :
    (matchDigitsLine prev (pre ++ t)).isSome = true := by
  induction pre generalizing prev with
  | nil =>
    cases t with
    | nil => simp [matchDigitsLineAt_nil] at ht
    | cons c s =>
      have hc := matchDigitsLineAt_head ht
      cases prev with
      | none => simp [matchDigitsLine, hc, ht]
      | some q =>
        have hq : isWordChar q = false := hb q (by simp)
        simp [matchDigitsLine, hc, hq, ht]
  | cons c pre ih =>
    simp only [List.cons_append, matchDigitsLine]
    split
    · rfl
    · apply ih
      intro p hp
      apply hb p
      cases prev with
      | none => simpa using hp
      | some q =>
        simp only [Option.toList, List.singleton_append] at hp ⊢
        rw [List.getLast?_cons_cons]
        exact hp

theorem no_lineOccurrence {m : JsString} (h : matchLineDigits m = none) (i : Nat)
    (d : JsString) : ¬ LineOccurrence m i d := by
  rw [lineOccurrence_iff, matchLineDigits_none h i]
  simp

theorem lineOccurrence_of_match {m d : JsString} (h : matchLineDigits m = some d) :
    ∃ i, LineOccurrence m i d := by
  obtain ⟨i, hi, hm⟩ := matchLineDigits_some h
  exact ⟨i, (lineOccurrence_iff m i d).mpr ⟨hi, hm⟩⟩

theorem no_earlier_lineOccurrence {m : JsString} {i : Nat}
    (h : ∀ j, j < i → matchLineDigitsAt (m.drop j) = none) (j : Nat) (d : JsString)
    (hj : j < i) : ¬ LineOccurrence m j d := by
  rw [lineOccurrence_iff, h j hj]
  simp

theorem digitsLineOccurrence_of_match {m d : JsString}
    (h : matchDigitsLine none m = some d) : ∃ i, DigitsLineOccurrence m i d := by
  obtain ⟨pre, t, rfl, ht, hb⟩ := matchDigitsLine_some h
  obtain ⟨ws, kw, rest, rfl, hd, hdall, hwsall, hkw⟩ := (matchDigitsLineAt_iff t d).mp ht
  exact ⟨pre.length, pre, ws, kw, rest, by simp [List.append_assoc], rfl,
    by simpa using hb, hd, hdall, hwsall, hkw⟩

theorem no_digitsLineOccurrence {m : JsString} (h : matchDigitsLine none m = none)
    (i : Nat) (d : JsString) : ¬ DigitsLineOccurrence m i d := by
  rintro ⟨pre, ws, kw, rest, rfl, -, hb, hd, hdall, hwsall, hkw⟩
  have ht : matchDigitsLineAt (d ++ ws ++ kw ++ rest) = some d :=
    (matchDigitsLineAt_iff _ d).mpr ⟨ws, kw, rest, rfl, hd, hdall, hwsall, hkw⟩
  have := matchDigitsLine_isSome none pre (d ++ ws ++ kw ++ rest) ht
    (by simpa using hb)
  simp only [List.append_assoc] at this h
  rw [h] at this
  cases this

/-- The line cell when `bug.line` is `null` or `undefined` and the message is a
string. -/
theorem lineCell_of_message (env : Env) (bug : Bug) (m : JsString)
    (hline : bug.line = none ∨ bug.line = some .null)
    (hmsg : bug.message = some (.str m)) :
    lineCell env bug =
      .ok { body := .text ((lineMatch m).getD (js "-"))
            opacity := if (lineMatch m).isSome then js "1" else js "0.5" } := by
  unfold lineCell
  rcases hline with h | h <;> simp only [h, hmsg]

/-- C7: for a bug whose `line` is `null` or `undefined` and whose message holds the
word "line" (any letter case) followed by whitespace and digits, the line cell shows
the digit run of the leftmost such occurrence at opacity 1; when the message holds
neither that nor digits followed by "line" or "ln", the cell shows "-" at
opacity 0.5. -/
theorem lineCell_recovers_line (env : Env) (bug : Bug) (m : JsString)
    (hline : bug.line = none ∨ bug.line = some .null)
    (hmsg : bug.message = some (.str m)) :
    (∀ i d, LineOccurrence m i d → (∀ j d', j < i → ¬ LineOccurrence m j d') →
        lineCell env bug = .ok { body := .text d, opacity := js "1" }) ∧
      ((∀ i d, ¬ LineOccurrence m i d) → (∀ i d, ¬ DigitsLineOccurrence m i d) →
        lineCell env bug = .ok { body := .text (js "-"), opacity := js "0.5" }) := by
  rw [lineCell_of_message env bug m hline hmsg]
  constructor
  · intro i d hocc hmin
    have hat := (lineOccurrence_iff m i d).mp hocc
    have hfirst : matchLineDigits m = some d := by
      apply matchLineDigits_leftmost hat.2
      intro j hj
      cases hj' : matchLineDigitsAt (m.drop j) with
      | none => rfl
      | some d' =>
        exact absurd ((lineOccurrence_iff m j d').mpr ⟨by omega, hj'⟩) (hmin j d' hj)
    have hm : lineMatch m = some d := by simp only [lineMatch, hfirst]
    simp only [hm, Option.getD_some, Option.isSome_some, if_true]
  · intro h1 h2
    have hfirst : matchLineDigits m = none := by
      cases h : matchLineDigits m with
      | none => rfl
      | some d =>
        obtain ⟨i, hi⟩ := lineOccurrence_of_match h
        exact absurd hi (h1 i d)
    have hsecond : matchDigitsLine none m = none := by
      cases h : matchDigitsLine none m with
      | none => rfl
      | some d =>
        obtain ⟨i, hi⟩ := digitsLineOccurrence_of_match h
        exact absurd hi (h2 i d)
    have hm : lineMatch m = none := by simp only [lineMatch, hfirst, hsecond]
    simp only [hm, Option.getD_none, Option.isSome_none, Bool.false_eq_true, if_false]

theorem lineCell_recovers_line_witness :
    lineCell exampleEnv { message := some (.str (js "Unexpected indent on line 42")) } =
        .ok { body := .text (js "42"), opacity := js "1" } ∧
      lineCell exampleEnv { message := some (.str (js "Division by zero")) } =
        .ok { body := .text (js "-"), opacity := js "0.5" } :=
  ⟨(lineCell_recovers_line exampleEnv _ (js "Unexpected indent on line 42") (Or.inl rfl)
      rfl).1 21 (js "42")
      ⟨js "Unexpected indent on ", js "line", js " ", [], by decide, by decide, by decide,
        by decide, by decide, by decide, by decide, by decide⟩
      (no_earlier_lineOccurrence (by decide)),
    (lineCell_recovers_line exampleEnv _ (js "Division by zero") (Or.inl rfl) rfl).2
      (no_lineOccurrence (by decide)) (no_digitsLineOccurrence (by decide))⟩

/-! ## Rendering a well-formed result -/

theorem lineCell_of_renderable (env : Env) (bug : Bug) (h : bug.renderable) :
    ∃ cell, lineCell env bug = .ok cell := by
  unfold lineCell
  rcases h with ⟨v, hv, hne⟩ | ⟨m, hm⟩
  · cases v with
    | null => exact absurd rfl hne
    | bool b =>
      simp only [hv]
      exact ⟨_, rfl⟩
    | num n =>
      simp only [hv]
      exact ⟨_, rfl⟩
    | str t =>
      simp only [hv]
      exact ⟨_, rfl⟩
  · simp only [hm]
    rcases bug.line with _ | v
    · exact ⟨_, rfl⟩
    · cases v with
      | null => exact ⟨_, rfl⟩
      | bool b => exact ⟨_, rfl⟩
      | num n => exact ⟨_, rfl⟩
      | str t => exact ⟨_, rfl⟩

/-- When every bug can be rendered the loop produces one row of four cells for each
bug. -/
theorem bugRows_of_renderable (env : Env) (bugs : List Bug)
    (h : ∀ bug ∈ bugs, bug.renderable) :
    ∃ rows, bugRows env bugs = .ok rows ∧ rows.length = bugs.length ∧
      ∀ row ∈ rows, row.length = 4 := by
  induction bugs with
  | nil => exact ⟨[], rfl, rfl, by simp⟩
  | cons bug rest ih =>
    obtain ⟨cell, hc⟩ := lineCell_of_renderable env bug (h bug (List.mem_cons_self _ _))
    obtain ⟨rows, hr, hlen, hall⟩ := ih (fun b hb => h b (List.mem_cons_of_mem _ hb))
    simp only [bugRows, bugRow, hc, hr]
    refine ⟨_, rfl, by simp [hlen], ?_⟩
    intro row hrow
    rcases List.mem_cons.mp hrow with rfl | hrow
    · rfl
    · exact hall row hrow

theorem renderExplanation_eq (data : Body) (s : AppState) :
    renderExplanation data s =
      ({ s with explanationBox := shown data.fields.explanation s.explanationBox },
        none) := by
  unfold renderExplanation shown
  split <;> rfl

theorem renderFixed_eq (env : Env) (data : Body) (s : AppState) (b : Bool)
    (hhljs : env.hljs = some b) :
    renderFixed env data s =
      ({ s with fixedCodeBox := shown data.fields.fixed_code s.fixedCodeBox }, none) := by
  unfold renderFixed shown highlight
  rw [hhljs]
  split <;> rfl

theorem renderOptimized_eq (env : Env) (data : Body) (s : AppState) (b : Bool)
    (hhljs : env.hljs = some b) :
    renderOptimized env data s =
      ({ s with optimizedCodeBox := shown data.fields.optimized_code s.optimizedCodeBox },
        none) := by
  unfold renderOptimized shown highlight
  rw [hhljs]
  split <;> rfl

theorem renderComplexity_eq (data : Body) (s : AppState) :
    renderComplexity data s =
      ({ s with
          timeComplexity :=
            match data.fields.complexity with
            | some c => shown c.time s.timeComplexity
            | none => s.timeComplexity
          spaceComplexity :=
            match data.fields.complexity with
            | some c => shown c.space s.spaceComplexity
            | none => s.spaceComplexity }, none) := by
  unfold renderComplexity shown
  rcases data.fields.complexity with _ | c
  · rfl
  · dsimp only
    cases truthy c.time <;> cases truthy c.space <;> rfl

theorem renderTests_eq (data : Body) (s : AppState) :
    renderTests data s =
      ({ s with
          testsList :=
            match data.fields.tests with
            | some tests => s.testsList ++ tests.map testText
            | none => s.testsList }, none) := by
  unfold renderTests
  rcases data.fields.tests with _ | tests <;> rfl

/-- The `try` block on a result whose rows can be built, with `hljs` declared: every
step runs, and no exception is left. -/
theorem renderResult_of_rows (env : Env) (language code : JsString) (data : Body)
    (s : AppState) (rows : List Row) (b : Bool)
    (hrows : bugsFragment env data = .ok rows) (hhljs : env.hljs = some b) :
    renderResult env language code data s =
      ({ saveToHistory env language code data
            (setStatus (orText data.fields.message (js "Analysis complete.")) (js "info")
              (clearStatus s)) with
          bugsTableBody := s.bugsTableBody ++ rows
          explanationBox := shown data.fields.explanation s.explanationBox
          fixedCodeBox := shown data.fields.fixed_code s.fixedCodeBox
          optimizedCodeBox := shown data.fields.optimized_code s.optimizedCodeBox
          timeComplexity :=
            match data.fields.complexity with
            | some c => shown c.time s.timeComplexity
            | none => s.timeComplexity
          spaceComplexity :=
            match data.fields.complexity with
            | some c => shown c.space s.spaceComplexity
            | none => s.spaceComplexity
          testsList :=
            match data.fields.tests with
            | some tests => s.testsList ++ tests.map testText
            | none => s.testsList }, none) := by
  simp only [renderResult, renderBugs, hrows, andThen, renderExplanation_eq,
    renderFixed_eq env data _ b hhljs, renderOptimized_eq env data _ b hhljs,
    renderComplexity_eq, renderTests_eq]
  rfl

/-- The rows of the table for a result all of whose bugs can be rendered: one per bug,
or the single informational row when there is none. -/
theorem bugsFragment_of_renderable (env : Env) (data : Body)
    (hbugs : ∀ bugs, data.fields.bugs = some bugs → ∀ bug ∈ bugs, bug.renderable) :
    ∃ rows, bugsFragment env data = .ok rows ∧
      (bugCount data = 0 → rows = [noBugsRow]) ∧
      (0 < bugCount data → rows.length = bugCount data) := by
  unfold bugsFragment bugCount
  rcases hb : data.fields.bugs with _ | bugs
  · exact ⟨_, rfl, fun _ => rfl, fun h => absurd h (by simp)⟩
  · cases bugs with
    | nil => exact ⟨_, rfl, fun _ => rfl, fun h => absurd h (by simp)⟩
    | cons bug rest =>
      obtain ⟨rows, hr, hlen, -⟩ := bugRows_of_renderable env (bug :: rest) (hbugs _ hb)
      exact ⟨rows, hr, fun h => absurd h (by simp), fun _ => hlen⟩

/-- On a run during which no other handler runs, a successful response all of whose
bugs can be rendered, with `hljs` declared, is rendered to the end: the run finishes in the info status (the message of the response,
or "Analysis complete."), with the button enabled, the rows of the bugs in the table,
and each pane showing its field when the field is truthy and nothing otherwise. -/
theorem analyzeCode_renders (env : Env) (status : Nat) (data : Body) (s : AppState)
    (b : Bool) (hcode : isBlank s.codeInput = false) (hok : statusOk status = true)
    (hdata : data.truthy = true) (hhljs : env.hljs = some b)
    (hbugs : ∀ bugs, data.fields.bugs = some bugs → ∀ bug ∈ bugs, bug.renderable) :
    (analyzeCode env (.response status (.ok data)) s).statusBox =
        { textContent := orText data.fields.message (js "Analysis complete.")
          classList := [js "status", js "info"] } ∧
      bugsFragment env data =
        .ok (analyzeCode env (.response status (.ok data)) s).bugsTableBody ∧
      (analyzeCode env (.response status (.ok data)) s).explanationBox =
        shown data.fields.explanation [] ∧
      (analyzeCode env (.response status (.ok data)) s).fixedCodeBox =
        shown data.fields.fixed_code [] ∧
      (analyzeCode env (.response status (.ok data)) s).optimizedCodeBox =
        shown data.fields.optimized_code [] ∧
      (analyzeCode env (.response status (.ok data)) s).timeComplexity =
        (match data.fields.complexity with
          | some c => shown c.time []
          | none => []) ∧
      (analyzeCode env (.response status (.ok data)) s).spaceComplexity =
        (match data.fields.complexity with
          | some c => shown c.space []
          | none => []) ∧
      (analyzeCode env (.response status (.ok data)) s).testsList =
        (match data.fields.tests with
          | some tests => tests.map testText
          | none => []) := by
  obtain ⟨rows, hrows, -, -⟩ := bugsFragment_of_renderable env data hbugs
  rw [analyzeCode_of_not_blank env _ s hcode,
    tryBlock_of_success env status data _ _ _ hok hdata,
    renderResult_of_rows env _ _ data _ rows b hrows hhljs, hrows]
  simp only [endAnalysis, setStatus_info]
  refine ⟨rfl, rfl, rfl, rfl, rfl, ?_, ?_, ?_⟩
  · rcases data.fields.complexity with _ | c <;> rfl
  · rcases data.fields.complexity with _ | c <;> rfl
  · rcases data.fields.tests with _ | tests <;> rfl

/-! ## The history entry of a successful analysis -/

theorem andThen_of_error (r : AppState × Option JsError)
    (f : AppState → AppState × Option JsError) (e : JsError) (h : r.2 = some e) :
    andThen r f = r := by
  unfold andThen
  rw [h]

/-- A step that keeps a component of the state keeps it when chained. -/
theorem andThen_keeps {α : Type} (proj : AppState → α) (r : AppState × Option JsError)
    (f : AppState → AppState × Option JsError) (hf : ∀ s, proj (f s).1 = proj s) :
    proj (andThen r f).1 = proj r.1 := by
  unfold andThen
  split
  · rfl
  · exact hf _

theorem renderBugs_storage (env : Env) (data : Body) (s : AppState) :
    (renderBugs env data s).1.localStorage = s.localStorage := by
  unfold renderBugs
  split <;> rfl

theorem renderExplanation_storage (data : Body) (s : AppState) :
    (renderExplanation data s).1.localStorage = s.localStorage := by
  rw [renderExplanation_eq]

theorem renderFixed_storage (env : Env) (data : Body) (s : AppState) :
    (renderFixed env data s).1.localStorage = s.localStorage := by
  unfold renderFixed
  split
  · rw [highlight_fst]
  · rfl

theorem renderOptimized_storage (env : Env) (data : Body) (s : AppState) :
    (renderOptimized env data s).1.localStorage = s.localStorage := by
  unfold renderOptimized
  split
  · rw [highlight_fst]
  · rfl

theorem renderComplexity_storage (data : Body) (s : AppState) :
    (renderComplexity data s).1.localStorage = s.localStorage := by
  rw [renderComplexity_eq]

theorem renderTests_storage (data : Body) (s : AppState) :
    (renderTests data s).1.localStorage = s.localStorage := by
  rw [renderTests_eq]

/-- Whatever the rendering does afterwards, the `try` block leaves in local storage
what `saveToHistory` wrote. -/
theorem renderResult_storage (env : Env) (language code : JsString) (data : Body)
    (s : AppState) :
    (renderResult env language code data s).1.localStorage =
      { s.localStorage with
        history := some ((newEntry env language code data :: storedHistory s).take 20) } := by
  unfold renderResult
  rw [andThen_keeps AppState.localStorage _ _ (renderTests_storage data),
    andThen_keeps AppState.localStorage _ _ (renderComplexity_storage data),
    andThen_keeps AppState.localStorage _ _ (renderOptimized_storage env data),
    andThen_keeps AppState.localStorage _ _ (renderFixed_storage env data),
    andThen_keeps AppState.localStorage _ _ (renderExplanation_storage data),
    renderBugs_storage]
  rfl

theorem renderBugs_requests (env : Env) (data : Body) (s : AppState) :
    (renderBugs env data s).1.requests = s.requests := by
  unfold renderBugs
  split <;> rfl

theorem renderExplanation_requests (data : Body) (s : AppState) :
    (renderExplanation data s).1.requests = s.requests := by
  rw [renderExplanation_eq]

theorem renderFixed_requests (env : Env) (data : Body) (s : AppState) :
    (renderFixed env data s).1.requests = s.requests := by
  unfold renderFixed
  split
  · rw [highlight_fst]
  · rfl

theorem renderOptimized_requests (env : Env) (data : Body) (s : AppState) :
    (renderOptimized env data s).1.requests = s.requests := by
  unfold renderOptimized
  split
  · rw [highlight_fst]
  · rfl

theorem renderComplexity_requests (data : Body) (s : AppState) :
    (renderComplexity data s).1.requests = s.requests := by
  rw [renderComplexity_eq]

theorem renderTests_requests (data : Body) (s : AppState) :
    (renderTests data s).1.requests = s.requests := by
  rw [renderTests_eq]

theorem renderResult_requests (env : Env) (language code : JsString) (data : Body)
    (s : AppState) :
    (renderResult env language code data s).1.requests = s.requests := by
  unfold renderResult
  rw [andThen_keeps AppState.requests _ _ (renderTests_requests data),
    andThen_keeps AppState.requests _ _ (renderComplexity_requests data),
    andThen_keeps AppState.requests _ _ (renderOptimized_requests env data),
    andThen_keeps AppState.requests _ _ (renderFixed_requests env data),
    andThen_keeps AppState.requests _ _ (renderExplanation_requests data),
    renderBugs_requests]
  rfl

theorem endAnalysis_storage (r : AppState × Option JsError) :
    (endAnalysis r).localStorage = r.1.localStorage := by
  unfold endAnalysis
  split <;> rfl

theorem endAnalysis_requests (r : AppState × Option JsError) :
    (endAnalysis r).requests = r.1.requests := by
  unfold endAnalysis
  split <;> rfl

/-- A run that left the `try` block by an exception ends in the error status. -/
theorem endAnalysis_of_error (r : AppState × Option JsError) (e : JsError)
    (h : r.2 = some e) : (endAnalysis r).statusBox.classList = errorClasses := by
  unfold endAnalysis
  simp only [h, setStatus_error]

/-- A loop over the bugs that is not left by an exception leaves `bugsFragment` with
one row for each bug. -/
theorem bugRows_length (env : Env) (bugs : List Bug) (rows : List Row)
    (h : bugRows env bugs = .ok rows) : rows.length = bugs.length := by
  induction bugs generalizing rows with
  | nil =>
    simp only [bugRows, Except.ok.injEq] at h
    rw [← h]
    rfl
  | cons bug rest ih =>
    unfold bugRows at h
    split at h
    · cases h
    · split at h
      · cases h
      · rename_i trs hrest
        simp only [Except.ok.injEq] at h
        rw [← h, List.length_cons, List.length_cons, ih trs hrest]

theorem andThen_snd_of_error (r : AppState × Option JsError)
    (f : AppState → AppState × Option JsError) (e : JsError) (h : r.2 = some e) :
    (andThen r f).2 = some e := by
  rw [andThen_of_error r f e h]
  exact h

/-- An exception in the loop over the bugs is the exception the `try` block is left
with. -/
theorem renderResult_of_error (env : Env) (language code : JsString) (data : Body)
    (s : AppState) (e : JsError) (h : bugsFragment env data = .error e) :
    (renderResult env language code data s).2 = some e := by
  unfold renderResult
  apply andThen_snd_of_error
  apply andThen_snd_of_error
  apply andThen_snd_of_error
  apply andThen_snd_of_error
  apply andThen_snd_of_error
  simp only [renderBugs, h]

theorem bugCount_eq (data : Body) : bugCount data = (data.fields.bugs.getD []).length := by
  unfold bugCount
  rcases data.fields.bugs with _ | bugs <;> rfl

/-- The rows of a result whose loop was not left by an exception: as many as the bugs
when there is at least one. -/
theorem bugsFragment_length (env : Env) (data : Body) (rows : List Row)
    (h : bugsFragment env data = .ok rows) (hpos : 0 < bugCount data) :
    rows.length = bugCount data := by
  unfold bugsFragment at h
  unfold bugCount at hpos ⊢
  rcases hb : data.fields.bugs with _ | bugs
  · rw [hb] at hpos
    exact absurd hpos (by simp)
  · rw [hb] at h hpos
    cases bugs with
    | nil => exact absurd hpos (by simp)
    | cons bug rest => exact bugRows_length env _ rows h

/-- The entry is stored before the rows are built: on the response of
`bugWithoutMessage`, whose rendering is left by an exception, the history records one
bug while the run ends in the error status with an empty table. -/
theorem history_entry_when_rendering_fails :
    (storedHistory (analyzeCode exampleEnv (.response 200 (.ok bugWithoutMessage))
        (exampleState (js "x = 1")))).map HistoryEntry.bugCount = [1] ∧
      (analyzeCode exampleEnv (.response 200 (.ok bugWithoutMessage))
        (exampleState (js "x = 1"))).bugsTableBody = [] ∧
      (analyzeCode exampleEnv (.response 200 (.ok bugWithoutMessage))
        (exampleState (js "x = 1"))).statusBox.classList = [js "status", js "error"] := by
  decide

/-! ## Runs that suspend and resume -/

/-- What the first part of a run that suspends leaves: the table cleared, the request
sent with the language and the trimmed code that the run keeps, local storage
untouched. -/
theorem analyzeStart_suspended {s0 s1 : AppState} {run : PendingRun}
    (h : analyzeStart s0 = (s1, some run)) :
    isBlank s0.codeInput = false ∧
      run.language = s0.languageSelect ∧ run.code = trim s0.codeInput ∧
      s1.bugsTableBody = [] ∧
      s1.requests = s0.requests ++ [{ url := API_BASE_URL ++ js "/api/debug"
                                      language := run.language
                                      code := run.code }] ∧
      s1.localStorage = s0.localStorage := by
  unfold analyzeStart at h
  simp only [trim_isEmpty] at h
  cases hb : isBlank s0.codeInput with
  | true =>
    rw [hb] at h
    simp at h
  | false =>
    rw [hb] at h
    simp only [Bool.false_eq_true, if_false, Prod.mk.injEq, Option.some.injEq] at h
    obtain ⟨h1, h2⟩ := h
    subst h1
    subst h2
    exact ⟨rfl, rfl, rfl, rfl, rfl, rfl⟩

/-- The continuation on a successful response with a truthy body. -/
theorem afterFetch_of_success (env : Env) (status : Nat) (data : Body)
    (language code : JsString) (s : AppState)
    (hok : statusOk status = true) (hdata : data.truthy = true) :
    afterFetch env (.response status (.ok data)) language code s =
      renderResult env language code data s := by
  simp only [afterFetch, hok, hdata, Bool.not_true, Bool.false_eq_true, if_false]

/-- The continuation on a failing request: an exception, and no write before it. -/
theorem afterFetch_of_fails (env : Env) (outcome : FetchOutcome)
    (language code : JsString) (s : AppState) (hfail : requestFails outcome = true) :
    ∃ e, afterFetch env outcome language code s = (s, some e) := by
  obtain ⟨e, he⟩ := tryBlock_of_fails env outcome language code s hfail
  refine ⟨e, ?_⟩
  cases outcome with
  | rejected e' =>
    simp only [tryBlock, afterFetch, Prod.mk.injEq, Option.some.injEq] at he
    simp only [afterFetch, he.2]
  | response status body =>
    by_cases hok : statusOk status = true
    · cases body with
      | error e' =>
        simp only [tryBlock, afterFetch, hok, Bool.not_true, Bool.false_eq_true, if_false,
          Prod.mk.injEq, Option.some.injEq] at he
        simp only [afterFetch, hok, Bool.not_true, Bool.false_eq_true, if_false, he.2]
      | ok data =>
        have hd : data.truthy = false := by
          simpa [requestFails, hok] using hfail
        simp only [tryBlock, afterFetch, hok, hd, Bool.not_true, Bool.not_false,
          Bool.false_eq_true, if_false, if_true, Prod.mk.injEq, Option.some.injEq] at he
        simp only [afterFetch, hok, hd, Bool.not_true, Bool.not_false, Bool.false_eq_true,
          if_false, if_true, he.2]
    · have hok2 : statusOk status = false := by simpa using hok
      simp only [tryBlock, afterFetch, hok2, Bool.not_false, if_true, Prod.mk.injEq,
        Option.some.injEq] at he
      simp only [afterFetch, hok2, Bool.not_false, if_true, he.2]

/-- Whatever state a failing request comes back to, the continuation only sets the
error status and enables the button: panes, table and local storage stay as they
are. -/
theorem analyzeResume_of_fails (env : Env) (outcome : FetchOutcome) (run : PendingRun)
    (s : AppState) (hfail : requestFails outcome = true) :
    ∃ e : JsError, analyzeResume env outcome run s =
      { s with
        statusBox := { textContent := js "Error: " ++ e.message, classList := errorClasses }
        analyzeBtnDisabled := false } := by
  obtain ⟨e, he⟩ := afterFetch_of_fails env outcome run.language run.code s hfail
  refine ⟨e, ?_⟩
  simp only [analyzeResume, he, endAnalysis, setStatus_error]

/-- Whatever state the response comes back to, the continuation ends with the button
enabled. -/
theorem analyzeResume_enables_button (env : Env) (outcome : FetchOutcome)
    (run : PendingRun) (s : AppState) :
    (analyzeResume env outcome run s).analyzeBtnDisabled = false := rfl

/-- The run `analyzeCode` is the first part followed at once by the continuation. -/
theorem analyzeCode_eq_resume (env : Env) (outcome : FetchOutcome) {s0 s1 : AppState}
    {run : PendingRun} (h : analyzeStart s0 = (s1, some run)) :
    analyzeCode env outcome s0 = analyzeResume env outcome run s1 := by
  simp only [analyzeCode, h]

/-- C6, as the code has it: a run that receives a successful response whose `bugs` is
absent or empty appends exactly one row to the bug table, made of one cell that spans
4 columns and reads "No bugs detected."; the table then holds exactly that row when
it was still empty, as it is when the response arrives with no handler having run
since the run started. -/
theorem analyzeResume_no_bugs (env : Env) (status : Nat) (data : Body)
    (s0 s1 s : AppState) (run : PendingRun)
    (hstart : analyzeStart s0 = (s1, some run))
    (hok : statusOk status = true) (hdata : data.truthy = true)
    (hbugs : data.fields.bugs = none ∨ data.fields.bugs = some []) :
    (analyzeResume env (.response status (.ok data)) run s).bugsTableBody =
        s.bugsTableBody ++ [[{ body := .text (js "No bugs detected."), colSpan := 4 }]] ∧
      (s.bugsTableBody = [] →
        (analyzeResume env (.response status (.ok data)) run s).bugsTableBody =
          [[{ body := .text (js "No bugs detected."), colSpan := 4 }]]) ∧
      (analyzeResume env (.response status (.ok data)) run s1).bugsTableBody =
        [[{ body := .text (js "No bugs detected."), colSpan := 4 }]] ∧
      (analyzeCode env (.response status (.ok data)) s0).bugsTableBody =
        [[{ body := .text (js "No bugs detected."), colSpan := 4 }]] := by
  have hfrag : bugsFragment env data = .ok [noBugsRow] := by
    unfold bugsFragment
    rcases hbugs with h | h <;> rw [h]
  have happend : ∀ t : AppState,
      (analyzeResume env (.response status (.ok data)) run t).bugsTableBody =
        t.bugsTableBody ++ [[{ body := .text (js "No bugs detected."), colSpan := 4 }]] := by
    intro t
    rw [analyzeResume, endAnalysis_bugsTableBody,
      afterFetch_of_success env status data _ _ _ hok hdata, renderResult_bugsTableBody]
    simp only [renderBugs, hfrag]
    rfl
  have hclear := (analyzeStart_suspended hstart).2.2.2.1
  refine ⟨happend s, ?_, ?_, ?_⟩
  · intro h
    rw [happend s, h]
    rfl
  · rw [happend s1, hclear]
    rfl
  · rw [analyzeCode_eq_resume env _ hstart, happend s1, hclear]
    rfl

theorem analyzeResume_no_bugs_witness :
    (analyzeCode exampleEnv (.response 200 (.ok (.obj { bugs := some [] })))
        (exampleState (js "x = 1"))).bugsTableBody =
      [[{ body := .text (js "No bugs detected."), colSpan := 4 }]] :=
  (analyzeResume_no_bugs exampleEnv 200 (.obj { bugs := some [] })
    (exampleState (js "x = 1")) (analyzeStart (exampleState (js "x = 1"))).1
    (exampleState (js "x = 1")) { language := js "Python", code := js "x = 1" }
    (by decide) (by decide) rfl (Or.inr rfl)).2.2.2

/-- C6 as stated fails when two runs overlap: Ctrl+Enter starts a second run while the
request of the first is in flight; both runs clear the table before either response
arrives, and each response, with an empty `bugs`, appends its row: two rows. -/
theorem overlapping_runs_two_rows :
    (overlappingRuns exampleEnv (.response 200 (.ok (.obj { bugs := some [] })))
        (.response 200 (.ok (.obj { bugs := some [] })))
        (exampleState (js "x = 1"))).bugsTableBody =
      [[{ body := .text (js "No bugs detected."), colSpan := 4 }],
       [{ body := .text (js "No bugs detected."), colSpan := 4 }]] ∧
    (overlappingRuns exampleEnv (.response 200 (.ok (.obj { bugs := some [] })))
        (.response 200 (.ok (.obj { bugs := some [] })))
        (exampleState (js "x = 1"))).requests.length = 2 := by
  decide

/-- C11, as the code has it: a run on non-blank code that receives a successful
response adds one entry at the head of the history stored at that moment (capped at
20); the entry holds the language selected and, as `fullCode`, the trimmed code sent
when the run started, and as bug count the number of bugs of the response (0 when
`bugs` is absent or empty).  When there is at least one bug and each bug has a line
other than `null` or a string message, the run appends that many rows to the table, so
the table holds that many rows when it was still empty, as it is when no handler has
run since the run started. -/
theorem analyzeResume_history_entry (env : Env) (status : Nat) (data : Body)
    (s0 s1 s : AppState) (run : PendingRun)
    (hstart : analyzeStart s0 = (s1, some run))
    (hok : statusOk status = true) (hdata : data.truthy = true) :
    storedHistory (analyzeResume env (.response status (.ok data)) run s) =
        ({ id := env.now
           timestamp := env.nowText
           language := s0.languageSelect
           code := (trim s0.codeInput).take 100 ++
             (if (trim s0.codeInput).length > 100 then js "..." else [])
           fullCode := trim s0.codeInput
           bugCount := (data.fields.bugs.getD []).length } :: storedHistory s).take 20 ∧
      ((storedHistory s).length < 20 →
        (storedHistory (analyzeResume env (.response status (.ok data)) run s)).length =
          (storedHistory s).length + 1) ∧
      s1.requests = s0.requests ++ [{ url := API_BASE_URL ++ js "/api/debug"
                                      language := s0.languageSelect
                                      code := trim s0.codeInput }] ∧
      ((∀ bug ∈ data.fields.bugs.getD [], bug.renderable) →
        0 < (data.fields.bugs.getD []).length →
        (∃ rows : List Row, rows.length = (data.fields.bugs.getD []).length ∧
          (analyzeResume env (.response status (.ok data)) run s).bugsTableBody =
            s.bugsTableBody ++ rows) ∧
        (s.bugsTableBody = [] →
          (analyzeResume env (.response status (.ok data)) run s).bugsTableBody.length =
            (data.fields.bugs.getD []).length) ∧
        (analyzeCode env (.response status (.ok data)) s0).bugsTableBody.length =
          (data.fields.bugs.getD []).length) := by
  obtain ⟨-, hlang, hcode, hclear, hreq, -⟩ := analyzeStart_suspended hstart
  have hhist : storedHistory (analyzeResume env (.response status (.ok data)) run s) =
      (newEntry env run.language run.code data :: storedHistory s).take 20 := by
    unfold storedHistory
    rw [analyzeResume, afterFetch_of_success env status data _ _ _ hok hdata,
      endAnalysis_storage, renderResult_storage]
    rfl
  refine ⟨?_, ?_, ?_, ?_⟩
  · rw [hhist, hlang, hcode]
    simp only [newEntry, bugCount_eq]
  · intro hlt
    rw [hhist, List.length_take, List.length_cons]
    omega
  · rw [hreq, hlang, hcode]
  · intro hrend hpos
    obtain ⟨rows, hrows, -, hlen⟩ := bugsFragment_of_renderable env data (by
      intro bugs hb bug hbug
      apply hrend
      rw [hb]
      exact hbug)
    have hcount : rows.length = (data.fields.bugs.getD []).length := by
      rw [← bugCount_eq] at hpos ⊢
      exact hlen hpos
    have happend : ∀ t : AppState,
        (analyzeResume env (.response status (.ok data)) run t).bugsTableBody =
          t.bugsTableBody ++ rows := by
      intro t
      rw [analyzeResume, endAnalysis_bugsTableBody,
        afterFetch_of_success env status data _ _ _ hok hdata, renderResult_bugsTableBody]
      simp only [renderBugs, hrows]
    refine ⟨⟨rows, hcount, happend s⟩, ?_, ?_⟩
    · intro hempty
      rw [happend s, hempty, List.nil_append, hcount]
    · rw [analyzeCode_eq_resume env _ hstart, happend s1, hclear, List.nil_append, hcount]

theorem analyzeResume_history_entry_witness :
    (analyzeCode exampleEnv (.response 200 (.ok twoBugs))
        (historyState 3)).bugsTableBody.length = 2 :=
  ((analyzeResume_history_entry exampleEnv 200 twoBugs (historyState 3)
    (analyzeStart (historyState 3)).1 (historyState 3)
    { language := js "Python", code := js "x" } (by decide) (by decide) rfl).2.2.2
    (by
      intro bug hbug
      simp only [twoBugs, Body.fields, Option.getD_some, List.mem_cons,
        List.mem_singleton, List.not_mem_nil, or_false] at hbug
      rcases hbug with rfl | rfl
      · exact Or.inl ⟨_, rfl, by decide⟩
      · exact Or.inr ⟨_, rfl⟩)
    (by decide)).2.2

/-- C11 as stated fails when two runs overlap: each of two overlapping runs receives
the response of `twoBugs` and stores an entry with bug count 2, and both end in the
info status, but the table, cleared by both before either response arrived, ends with
4 rows. -/
theorem overlapping_runs_rows_exceed_count :
    (storedHistory (overlappingRuns exampleEnv (.response 200 (.ok twoBugs))
        (.response 200 (.ok twoBugs)) (exampleState (js "x = 1")))).map
        HistoryEntry.bugCount = [2, 2] ∧
      (overlappingRuns exampleEnv (.response 200 (.ok twoBugs))
        (.response 200 (.ok twoBugs)) (exampleState (js "x = 1"))).bugsTableBody.length =
        4 ∧
      (overlappingRuns exampleEnv (.response 200 (.ok twoBugs))
        (.response 200 (.ok twoBugs)) (exampleState (js "x = 1"))).statusBox.classList =
        [js "status", js "info"] := by
  decide

end DebugOS
